import Mathlib

/-! # Nodo exterior: sampling state machine, fuel estimator and broadcast id

Shallow embedding of `src/include/constants.h`, `src/include/sensors.h` and
the `loop()` of `src/src/main.cpp`.

Modelling conventions.

* A `float` (binary32; `double` is the same type on the AVR target) is the
  rational number it stands for. Every `float` operation of `getNewGas`, and
  the conversion of the echo time to `float`, rounds its exact result to the
  nearest binary32 value, ties to even (`roundBinary32`). The exponent range
  is not modelled: the arithmetic of `getNewGas` is reached only with
  `500 ≤ timeUltrasonic ≤ 1200`, where every value is 0 or lies between
  `2^-23` and `8400`, far from overflow and from the subnormal range, and an
  echo time beyond that range compares with 500 and 1200 as its conversion
  does.
* `int` is the 16 bit `int` of the AVR target (the firmware includes
  `<avr/wdt.h>`). `index++` is the one place where an `int` can leave its
  range; it is modelled with the two's complement wrap-around avr-gcc emits.
* The arrays `currents` and `raindrops` are lists of `ARRAY_SIZE` slots. A
  store whose slot is outside the array does not change the array (it hits
  other memory); the slot of every store is recorded in `trace`.
* `runEvery` (`timing_helpers.h`), the alert state `resetAlert` and
  `pitidosRestantes` (`alerts.h`) and the sensor drivers are not embedded:
  what they return in a pass is the input of that pass (`PassInput`), and a
  run is taken over every sequence of such inputs.
-/

namespace NodoExterior

/-! ## constants.h -/

/-- Arduino `LOW`. -/
def LOW : Int := 0

/-- Arduino `HIGH`. -/
def HIGH : Int := 1

/-- Node identifier, `#define DEVICE_ID 20009`. -/
def DEVICE_ID : Int := 20009

/-- Largest value of the integer type C++ gives the decimal literal `d` on
the AVR target: `int` (16 bits) when `d` fits, else `long` (32 bits), else
`long long` (64 bits). -/
def literalMax (d : Int) : Int :=
  if d ≤ 32767 then 32767
  else if d ≤ 2147483647 then 2147483647
  else 9223372036854775807

/-- Two's complement value of the mathematical integer `n` in the signed
type whose largest value is `top`. -/
def wrapSigned (top : Int) (n : Int) : Int :=
  (n + (top + 1)) % (2 * (top + 1)) - (top + 1)

/-- The macro `BROADCAST_ID`, `(DEVICE_ID - DEVICE_ID % 10000 + 9999)`, as a
function of the literal `DEVICE_ID` is defined as. The expression is
evaluated in the integer type of that literal (`10000` and `9999` convert to
it); `%` is the truncating remainder of C, and a result outside the type
wraps in two's complement, as avr-gcc computes it. -/
def BROADCAST_ID (deviceId : Int) : Int :=
  wrapSigned (literalMax deviceId)
    (wrapSigned (literalMax deviceId) (deviceId - Int.tmod deviceId 10000) + 9999)

/-- Seconds between LoRa reports, `#define LORA_TIMEOUT 20`. -/
def LORA_TIMEOUT : Int := 20

/-- Number of sensors driven by `refreshRequested`, `#define SENSORS_QTY 2`. -/
def SENSORS_QTY : Nat := 2

/-- Seconds between sensor readings, `#define TIMEOUT_READ_SENSORS 2`. -/
def TIMEOUT_READ_SENSORS : Int := 2

/-- Buffer capacity, `(LORA_TIMEOUT / TIMEOUT_READ_SENSORS + 3)`. -/
def ARRAY_SIZE : Int := Int.tdiv LORA_TIMEOUT TIMEOUT_READ_SENSORS + 3

/-- Echo time of the empty tank in microseconds, `#define TIME_VACIO 1200`. -/
def TIME_VACIO : ℚ := 1200

/-- Echo time of the full tank in microseconds, `#define TIME_LLENO 500`. -/
def TIME_LLENO : ℚ := 500

/-- Tank capacity in litres, `#define CAPACIDAD_COMBUSTIBLE 12`. -/
def CAPACIDAD_COMBUSTIBLE : ℚ := 12

/-- Rain threshold, `((int)(LLUVIA_THRESHOLD_VOLTAGE * (1024 / 5.0)))` with
`LLUVIA_THRESHOLD_VOLTAGE = 2.5`: the product `2.5 * 204.8` is `512.0`. -/
def LLUVIA_THRESHOLD_10BIT : Int := 512

/-- Active level of the rain sensor, `#define LLUVIA_ACTIVO LOW`. -/
def LLUVIA_ACTIVO : Int := LOW

/-! ## Machine integers -/

/-- Value of a 16 bit two's complement `int` holding the mathematical
integer `n`. -/
def wrapInt16 (n : Int) : Int := (n + 32768) % 65536 - 32768

/-! ## Program state (globals of main.cpp) -/

/-- Observable steps of a run, recorded in `State.trace` in the order in
which they happen. A sensor call records the slot it stored to, or `none`
when it stored nothing. -/
inductive Event where
  | slowTick : Event
  | fastTick : Event
  | callCurrent : Option Int → Event
  | callRaindrop : Option Int → Event
  | callGas : Event
  | callGPS : Event
  deriving DecidableEq

/-- Global variables of `main.cpp` that the sampling logic reads and writes,
and the recorded `trace` (instrumentation, not a program variable). -/
structure State where
  /-- Array `float currents[ARRAY_SIZE]`. -/
  currents : List ℚ
  /-- Array `int raindrops[ARRAY_SIZE]`. -/
  raindrops : List Int
  /-- Variable `float gas`. -/
  gas : ℚ
  /-- Variable `int index`. -/
  index : Int
  /-- Flags `bool refreshRequested[SENSORS_QTY]`, as the pair of slot 0
  (current) and slot 1 (rain). -/
  refreshRequested : Bool × Bool
  /-- Flag `bool gasRequested`. -/
  gasRequested : Bool
  /-- Flag `bool GPSRequested`. -/
  GPSRequested : Bool
  /-- Steps recorded so far, oldest first. -/
  trace : List Event

/-- Store `v` in slot `i` of array `a`, `a[i] = v`. A slot outside the
array leaves the array itself as it is. -/
def store {α : Type} (a : List α) (i : Int) (v : α) : List α :=
  if 0 ≤ i then a.set i.toNat v else a

/-- Globals as initialised by their declarations in `main.cpp`:
`currents[ARRAY_SIZE] = {0.0}`, `raindrops[ARRAY_SIZE] = {-1}` (an
initialiser list shorter than the array: the first element is `-1`, the
remaining ones are zero-initialised), `gas = 0.0`, `index = 0`,
`refreshRequested[SENSORS_QTY] = {false}`, `gasRequested = true`,
`GPSRequested = true`. -/
def initialState : State where
  currents := List.replicate ARRAY_SIZE.toNat 0
  raindrops := (-1) :: List.replicate (ARRAY_SIZE.toNat - 1) 0
  gas := 0
  index := 0
  refreshRequested := (false, false)
  gasRequested := true
  GPSRequested := true
  trace := []

/-! ## binary32 arithmetic -/

/-- Nearest integer to `m`, the even one of the two when `m` is halfway
between two integers. -/
def roundHalfEven (m : ℚ) : Int :=
  if m - ⌊m⌋ < 1 / 2 then ⌊m⌋
  else if 1 / 2 < m - ⌊m⌋ then ⌊m⌋ + 1
  else if ⌊m⌋ % 2 = 0 then ⌊m⌋ else ⌊m⌋ + 1

/-- Spacing of the binary32 values in the binade of a positive `x`:
`2 ^ (e - 23)` for `2 ^ e ≤ x < 2 ^ (e + 1)` (24 bit significand). -/
def ulp32 (x : ℚ) : ℚ := (2 : ℚ) ^ (Int.log 2 x - 23)

/-- Binary32 value nearest to a positive `x`, ties to even. -/
def roundBinary32Pos (x : ℚ) : ℚ :=
  (roundHalfEven (x / ulp32 x) : ℚ) * ulp32 x

/-- Binary32 value nearest to `x`, ties to even: the result of a `float`
operation whose exact result is `x`. -/
def roundBinary32 (x : ℚ) : ℚ :=
  if 0 < x then roundBinary32Pos x
  else if x < 0 then -roundBinary32Pos (-x)
  else 0

/-! ## sensors.h -/

/-- Function `refreshAllSensors()`: every flag of `refreshRequested`
becomes true. -/
def refreshAllSensors (s : State) : State :=
  { s with refreshRequested := (true, true) }

/-- Function `stopRefreshingAllSensors()`: every flag of `refreshRequested`
becomes false. -/
def stopRefreshingAllSensors (s : State) : State :=
  { s with refreshRequested := (false, false) }

/-- Function `getNewCurrent()` (build without `CORRIENTE_MOCK`), with
`irms` the value of `eMon.Irms`. -/
def getNewCurrent (irms : ℚ) (s : State) : State :=
  if s.index < ARRAY_SIZE then
    { s with
      currents := store s.currents s.index irms
      refreshRequested := (false, s.refreshRequested.2)
      trace := s.trace ++ [Event.callCurrent (some s.index)] }
  else
    { s with
      refreshRequested := (false, s.refreshRequested.2)
      trace := s.trace ++ [Event.callCurrent none] }

/-- Function `getNewRaindrop()` (build without `RAINDROP_MOCK`), with `adc`
the value of `analogRead(LLUVIA_PIN)`. -/
def getNewRaindrop (adc : Int) (s : State) : State :=
  if s.index < ARRAY_SIZE then
    { s with
      raindrops :=
        if LLUVIA_ACTIVO = HIGH then
          (if adc ≥ LLUVIA_THRESHOLD_10BIT then store s.raindrops s.index 1
           else store s.raindrops s.index 0)
        else
          (if adc < LLUVIA_THRESHOLD_10BIT then store s.raindrops s.index 1
           else store s.raindrops s.index 0)
      refreshRequested := (s.refreshRequested.1, false)
      trace := s.trace ++ [Event.callRaindrop (some s.index)] }
  else
    { s with
      refreshRequested := (s.refreshRequested.1, false)
      trace := s.trace ++ [Event.callRaindrop none] }

/-- Function `getNewGas()` (build without `GAS_MOCK`), with `ping` the value
of `sonar.ping_median(PING_SAMPLES)`. `timeUltrasonic` is the `float` that
value is converted to; the subtraction from `TIME_VACIO`, the product with
`float(CAPACIDAD_COMBUSTIBLE)` and the division by `(TIME_VACIO - TIME_LLENO)`
are `float` operations (the `int` operands 1200, 500 and 700 and the 12 convert
exactly). The second `timeUltrasonic > TIME_VACIO` test is in the source. -/
def getNewGas (ping : ℚ) (s : State) : State :=
  let timeUltrasonic := roundBinary32 ping
  { s with
    gas :=
      if timeUltrasonic < TIME_LLENO then CAPACIDAD_COMBUSTIBLE
      else if timeUltrasonic > TIME_VACIO then 0
      else if timeUltrasonic > TIME_VACIO then 0
      else roundBinary32
        (roundBinary32 (CAPACIDAD_COMBUSTIBLE * roundBinary32 ( TIME_VACIO - timeUltrasonic))
          / ( TIME_VACIO - TIME_LLENO))
    gasRequested := false
    trace := s.trace ++ [Event.callGas] }

/-- The fuel estimate as the specification words it, with one clamp at each
calibration point: full capacity at or below the full-tank time, zero at or
above the empty-tank time, linear in between. -/
def clampedInterpolation (t : ℚ) : ℚ :=
  if t ≤ TIME_LLENO then CAPACIDAD_COMBUSTIBLE
  else if t ≥ TIME_VACIO then 0
  else CAPACIDAD_COMBUSTIBLE * ( TIME_VACIO - t) / ( TIME_VACIO - TIME_LLENO)

/-- Function `getNewGPS()`: feeds the bytes waiting on the GPS serial port to
the decoder. It writes none of the globals of `State`. -/
def getNewGPS (s : State) : State :=
  { s with trace := s.trace ++ [Event.callGPS] }

/-! ## array_helpers.h -/

/-- Modelled from the spec: `cleanupArray(array, size)` of `array_helpers.h`,
a header of the repository whose text is missing. The spec has both buffers "reset to their
sentinel values" after the report (`0.0` for currents, unknown, `-1`, for
rain); the comments on `currents` and `raindrops` in `main.cpp` say the same.
The first `size` slots become `sentinel`. -/
def cleanupArray {α : Type} (array : List α) (size : Nat) (sentinel : α) : List α :=
  (array.take size).map (fun _ => sentinel) ++ array.drop size

/-! ## main.cpp: loop() -/

/-- Values one pass of `loop()` obtains from the scheduler (`runEvery`), the
alert state and the sensor drivers. -/
structure PassInput where
  /-- Result of `runEvery(sec2ms(LORA_TIMEOUT), 1)`. -/
  slowDue : Bool
  /-- Result of `runEvery(sec2ms(TIMEOUT_READ_SENSORS), 2)`. -/
  fastDue : Bool
  /-- Value of `!resetAlert && !pitidosRestantes`. -/
  alertIdle : Bool
  /-- Value of `eMon.Irms` after `eMon.calcVI`. -/
  irms : ℚ
  /-- Value of `analogRead(LLUVIA_PIN)`. -/
  adc : Int
  /-- Value of `sonar.ping_median(PING_SAMPLES)`. -/
  echo : ℚ

/-- Body of `if (runEvery(sec2ms(LORA_TIMEOUT), 1))`. Composing and sending
the payload and `startAlert` write none of the globals of `State`. -/
def reportTick (s : State) : State :=
  { stopRefreshingAllSensors s with
    currents := cleanupArray s.currents ARRAY_SIZE.toNat 0
    raindrops := cleanupArray s.raindrops ARRAY_SIZE.toNat (-1)
    index := 0
    gasRequested := true
    trace := s.trace ++ [Event.slowTick] }

/-- Body of `if (runEvery(sec2ms(TIMEOUT_READ_SENSORS), 2))`:
`refreshAllSensors(); index++; GPSRequested = true;`. -/
def sensorTick (s : State) : State :=
  { refreshAllSensors s with
    index := wrapInt16 (s.index + 1)
    GPSRequested := true
    trace := s.trace ++ [Event.fastTick] }

/-- The `if (refreshRequested[0])` statement of `loop()`. -/
def readCurrent (inp : PassInput) (s : State) : State :=
  if s.refreshRequested.1 then getNewCurrent inp.irms s else s

/-- The `if (refreshRequested[1])` statement of `loop()`. -/
def readRaindrop (inp : PassInput) (s : State) : State :=
  if s.refreshRequested.2 then getNewRaindrop inp.adc s else s

/-- The `if (gasRequested)` statement of `loop()`. -/
def readGas (inp : PassInput) (s : State) : State :=
  if s.gasRequested then getNewGas inp.echo s else s

/-- The `if (GPSRequested)` statement of `loop()`. -/
def readGPS (s : State) : State :=
  if s.GPSRequested then getNewGPS s else s

/-- Body of `if (!resetAlert && !pitidosRestantes)`. -/
def readSensors (inp : PassInput) (s : State) : State :=
  readGPS (readGas inp (readRaindrop inp (readCurrent inp s)))

/-- The first `if` of `loop()`. -/
def slowPhase (inp : PassInput) (s : State) : State :=
  if inp.slowDue then reportTick s else s

/-- The second `if` of `loop()`. -/
def fastPhase (inp : PassInput) (s : State) : State :=
  if inp.fastDue then sensorTick s else s

/-- The third `if` of `loop()`. -/
def readPhase (inp : PassInput) (s : State) : State :=
  if inp.alertIdle then readSensors inp s else s

/-- One pass of `loop()`. `alertObserver`, `LoRaCmdObserver` and
`wdt_reset` write none of the globals of `State`. -/
def loop (inp : PassInput) (s : State) : State :=
  readPhase inp (fastPhase inp (slowPhase inp s))

/-- State after the loop passes `inps`, in order, from state `s`. -/
def runFrom (s : State) (inps : List PassInput) : State :=
  inps.foldl (fun st inp => loop inp st) s

/-- State after the loop passes `inps` from the start of the program. -/
def run (inps : List PassInput) : State :=
  runFrom initialState inps

/-- Number of fast ticks fired since the latest slow tick of the passes
`inps` (since the start when there is none). Within a pass the slow tick
comes first, so a fast tick of the same pass counts. -/
def fastSinceReset (inps : List PassInput) : Nat :=
  inps.foldl (fun n inp => (if inp.slowDue then 0 else n) + (if inp.fastDue then 1 else 0)) 0

/-- A pass in which only the fast tick fires, no alert is active, and the
sensors return `irms`, `adc` and `echo`. -/
def fastPass (irms : ℚ) (adc : Int) (echo : ℚ) : PassInput :=
  { slowDue := false, fastDue := true, alertIdle := true, irms := irms, adc := adc, echo := echo }

/-- A pass in which no tick fires and no alert is active. -/
def idlePass : PassInput :=
  { slowDue := false, fastDue := false, alertIdle := true, irms := 0, adc := 0, echo := 0 }

/-- Ten fast ticks, a pass in which the slow and the fast tick both fire,
and one more fast tick; the sensors return 1/4, 300 and 850 throughout. -/
def sampleCycle : List PassInput :=
  List.replicate 10 (fastPass (1 / 4) 300 850)
    ++ [{ fastPass (1 / 4) 300 850 with slowDue := true }, fastPass (1 / 4) 300 850]

/-- Whether the store an event records, if it records one, is to a slot of
the array: `0 ≤ i < ARRAY_SIZE`. -/
def Event.storeInBounds : Event → Bool
  | Event.callCurrent (some i) => decide (0 ≤ i) && decide (i < ARRAY_SIZE)
  | Event.callRaindrop (some i) => decide (0 ≤ i) && decide (i < ARRAY_SIZE)
  | _ => true

/-- Three passes in which only the fast tick fires, with the current
readings 1, 2, 3 and the rain readings 300, 700, 300. -/
def threeReadings : List PassInput :=
  [fastPass 1 300 850, fastPass 2 700 850, fastPass 3 300 850]

/-- Whether an event is a firing of the fast tick. -/
def Event.isFastTick : Event → Bool
  | Event.fastTick => true
  | _ => false

/-- Whether an event is a call of `getNewCurrent`. -/
def Event.isCurrentCall : Event → Bool
  | Event.callCurrent _ => true
  | _ => false

/-- Whether an event is a call of `getNewRaindrop`. -/
def Event.isRaindropCall : Event → Bool
  | Event.callRaindrop _ => true
  | _ => false

/-- Whether an event is a call of `getNewGas`. -/
def Event.isGasCall : Event → Bool
  | Event.callGas => true
  | _ => false

/-- Number of fast ticks in a trace. -/
def fastTicks (t : List Event) : Nat := t.countP Event.isFastTick

/-- Number of calls of `getNewCurrent` in a trace. -/
def currentCalls (t : List Event) : Nat := t.countP Event.isCurrentCall

/-- Number of calls of `getNewRaindrop` in a trace. -/
def raindropCalls (t : List Event) : Nat := t.countP Event.isRaindropCall

/-- Number of calls of `getNewGas` in a trace. -/
def gasCalls (t : List Event) : Nat := t.countP Event.isGasCall

/-- Number of calls of `getNewGas` in a trace after its latest slow tick
(in the whole trace when it has none). -/
def gasCallsSinceSlow (t : List Event) : Nat :=
  t.foldl (fun n e =>
    match e with
    | Event.slowTick => 0
    | Event.callGas => n + 1
    | _ => n) 0

/-- Invariant behind "at most one read per fast tick": at every point of the
trace the calls of each fast-period sensor are at most the fast ticks, and a
pending refresh request is a fast tick not yet used up. -/
def RefreshInv (s : State) : Prop :=
  (∀ t, t <+: s.trace → currentCalls t ≤ fastTicks t ∧ raindropCalls t ≤ fastTicks t)
    ∧ currentCalls s.trace + s.refreshRequested.1.toNat ≤ fastTicks s.trace
    ∧ raindropCalls s.trace + s.refreshRequested.2.toNat ≤ fastTicks s.trace

/-- Invariant behind "at most one fuel reading per reporting cycle": at every
point of the trace at most one call of `getNewGas` follows the latest slow
tick, and none does while a request is pending. -/
def GasInv (s : State) : Prop :=
  (∀ t, t <+: s.trace → gasCallsSinceSlow t ≤ 1)
    ∧ gasCallsSinceSlow s.trace + s.gasRequested.toNat ≤ 1

/-- The initial state after three fast ticks whose reads are still pending:
`index = 3`, both refresh flags set. -/
def stateAtSlotThree : State :=
  sensorTick (sensorTick (sensorTick initialState))

/-- Slots `getNewCurrent` has stored to since the latest slow tick of a
trace (in the whole trace when it has none), oldest first. -/
def currentSlotsSinceReset (t : List Event) : List Int :=
  t.foldl (fun acc e =>
    match e with
    | Event.slowTick => []
    | Event.callCurrent (some i) => acc ++ [i]
    | _ => acc) []

/-- Slots `getNewRaindrop` has stored to since the latest slow tick of a
trace (in the whole trace when it has none), oldest first. -/
def raindropSlotsSinceReset (t : List Event) : List Int :=
  t.foldl (fun acc e =>
    match e with
    | Event.slowTick => []
    | Event.callRaindrop (some i) => acc ++ [i]
    | _ => acc) []

/-- The slot a sensor call stores to in state `s`: `index` when the guard
`index < ARRAY_SIZE` holds, none otherwise. -/
def guardedSlot (s : State) : Option Int :=
  if s.index < ARRAY_SIZE then some s.index else none

/-- Invariant behind the time alignment of the two buffers at a pass
boundary: equal refresh flags, and the same slots stored to, in the same
order, by the two sensors since the latest slow tick. -/
def AlignedInv (s : State) : Prop :=
  s.refreshRequested.1 = s.refreshRequested.2
    ∧ currentSlotsSinceReset s.trace = raindropSlotsSinceReset s.trace

/-! ## binary32 rounding: order, exactness, error -/

theorem roundHalfEven_intCast (k : Int) : roundHalfEven (k : ℚ) = k := by
  unfold roundHalfEven
  rw [Int.floor_intCast, sub_self, if_pos (by norm_num)]

theorem abs_roundHalfEven_sub_le (m : ℚ) : |(roundHalfEven m : ℚ) - m| ≤ 1 / 2 := by
  have h1 := Int.floor_le m
  have h2 := Int.lt_floor_add_one m
  unfold roundHalfEven
  rw [abs_le]
  split_ifs <;> push_cast <;> constructor <;> linarith

theorem roundHalfEven_eq_of_close (m : ℚ) (k : Int) (h : |(k : ℚ) - m| < 1 / 2) :
    roundHalfEven m = k := by
  have h1 := abs_roundHalfEven_sub_le m
  rw [abs_le] at h1
  rw [abs_lt] at h
  have h3 : ((roundHalfEven m : Int) : ℚ) < (k : ℚ) + 1 := by linarith
  have h4 : (k : ℚ) < ((roundHalfEven m : Int) : ℚ) + 1 := by linarith
  have h5 : roundHalfEven m < k + 1 := by exact_mod_cast h3
  have h6 : k < roundHalfEven m + 1 := by exact_mod_cast h4
  omega

theorem roundHalfEven_mono (m1 m2 : ℚ) (h : m1 ≤ m2) : roundHalfEven m1 ≤ roundHalfEven m2 := by
  by_contra hc
  have hc2 : roundHalfEven m2 + 1 ≤ roundHalfEven m1 := by omega
  have hc3 : ((roundHalfEven m2 : Int) : ℚ) + 1 ≤ ((roundHalfEven m1 : Int) : ℚ) := by
    exact_mod_cast hc2
  have h1 := abs_roundHalfEven_sub_le m1
  have h2 := abs_roundHalfEven_sub_le m2
  rw [abs_le] at h1 h2
  have heq : m1 = m2 := by linarith
  rw [heq] at hc
  exact hc (le_refl _)

theorem ulp32_pos (x : ℚ) : 0 < ulp32 x := by
  unfold ulp32
  positivity

theorem ulp32_mul (x : ℚ) : ulp32 x * 2 ^ 23 = (2 : ℚ) ^ (Int.log 2 x) := by
  unfold ulp32
  rw [← zpow_natCast (2 : ℚ) 23, ← zpow_add₀ (by norm_num : (2 : ℚ) ≠ 0)]
  congr 1
  omega

theorem binade (x : ℚ) (hx : 0 < x) :
    ulp32 x * 2 ^ 23 ≤ x ∧ x < ulp32 x * 2 ^ 24 := by
  have h1 : ((2 : ℕ) : ℚ) ^ Int.log 2 x ≤ x := Int.zpow_log_le_self (by norm_num) hx
  have h2 : x < ((2 : ℕ) : ℚ) ^ (Int.log 2 x + 1) := Int.lt_zpow_succ_log_self (by norm_num) x
  rw [zpow_add_one₀ (by norm_num)] at h2
  push_cast at h1 h2
  rw [← ulp32_mul] at h1 h2
  constructor
  · exact h1
  · linarith

theorem mantissa_bounds (x : ℚ) (hx : 0 < x) :
    (2 : ℚ) ^ 23 ≤ x / ulp32 x ∧ x / ulp32 x < 2 ^ 24 := by
  obtain ⟨h1, h2⟩ := binade x hx
  have hu := ulp32_pos x
  constructor
  · rw [le_div_iff₀ hu]
    linarith
  · rw [div_lt_iff₀ hu]
    linarith

theorem roundBinary32Pos_bounds (x : ℚ) (hx : 0 < x) :
    ulp32 x * 2 ^ 23 ≤ roundBinary32Pos x ∧ roundBinary32Pos x ≤ ulp32 x * 2 ^ 24 := by
  obtain ⟨h1, h2⟩ := mantissa_bounds x hx
  have hu := ulp32_pos x
  have l1 : roundHalfEven (((2 ^ 23 : Int) : ℚ)) ≤ roundHalfEven (x / ulp32 x) :=
    roundHalfEven_mono _ _ (by push_cast; exact h1)
  have l2 : roundHalfEven (x / ulp32 x) ≤ roundHalfEven (((2 ^ 24 : Int) : ℚ)) :=
    roundHalfEven_mono _ _ (by push_cast; exact le_of_lt h2)
  rw [roundHalfEven_intCast] at l1 l2
  have c1 : ((2 : ℚ) ^ 23) ≤ (roundHalfEven (x / ulp32 x) : ℚ) := by exact_mod_cast l1
  have c2 : (roundHalfEven (x / ulp32 x) : ℚ) ≤ (2 : ℚ) ^ 24 := by exact_mod_cast l2
  unfold roundBinary32Pos
  constructor
  · calc ulp32 x * 2 ^ 23 = 2 ^ 23 * ulp32 x := mul_comm _ _
      _ ≤ (roundHalfEven (x / ulp32 x) : ℚ) * ulp32 x :=
        mul_le_mul_of_nonneg_right c1 (le_of_lt hu)
  · calc (roundHalfEven (x / ulp32 x) : ℚ) * ulp32 x ≤ 2 ^ 24 * ulp32 x :=
        mul_le_mul_of_nonneg_right c2 (le_of_lt hu)
      _ = ulp32 x * 2 ^ 24 := mul_comm _ _

theorem roundBinary32Pos_pos (x : ℚ) (hx : 0 < x) : 0 < roundBinary32Pos x := by
  have h := (roundBinary32Pos_bounds x hx).1
  have hu := ulp32_pos x
  have : 0 < ulp32 x * 2 ^ 23 := by positivity
  linarith

theorem roundBinary32Pos_mono (x y : ℚ) (hx : 0 < x) (hxy : x ≤ y) :
    roundBinary32Pos x ≤ roundBinary32Pos y := by
  have hy : 0 < y := lt_of_lt_of_le hx hxy
  have hlog : Int.log 2 x ≤ Int.log 2 y := Int.log_mono_right hx hxy
  rcases eq_or_lt_of_le hlog with he | hlt
  · have hu : ulp32 x = ulp32 y := by
      unfold ulp32
      rw [he]
    have hup := ulp32_pos y
    unfold roundBinary32Pos
    rw [hu]
    have hm : roundHalfEven (x / ulp32 y) ≤ roundHalfEven (y / ulp32 y) :=
      roundHalfEven_mono _ _ (div_le_div_of_nonneg_right hxy (le_of_lt hup))
    have hmq : (roundHalfEven (x / ulp32 y) : ℚ) ≤ (roundHalfEven (y / ulp32 y) : ℚ) := by
      exact_mod_cast hm
    exact mul_le_mul_of_nonneg_right hmq (le_of_lt hup)
  · have h1 := (roundBinary32Pos_bounds x hx).2
    have h2 := (roundBinary32Pos_bounds y hy).1
    have hstep : ulp32 x * 2 ^ 24 ≤ ulp32 y * 2 ^ 23 := by
      have e1 : ulp32 x * 2 ^ 24 = (2 : ℚ) ^ (Int.log 2 x + 1) := by
        rw [zpow_add_one₀ (by norm_num), ← ulp32_mul]
        ring
      rw [e1, ulp32_mul]
      exact zpow_le_zpow_right₀ (by norm_num) (by omega)
    linarith

theorem roundBinary32_neg (x : ℚ) : roundBinary32 (-x) = -roundBinary32 x := by
  unfold roundBinary32
  rcases lt_trichotomy x 0 with h | h | h
  · have h1 : 0 < -x := by linarith
    have h2 : ¬ (0 < x) := by linarith
    rw [if_pos h1, if_neg h2, if_pos h, neg_neg]
  · subst h
    simp
  · have h1 : ¬ (0 < -x) := by linarith
    have h2 : -x < 0 := by linarith
    rw [if_neg h1, if_pos h2, if_pos h, neg_neg]

theorem roundBinary32_mono (x y : ℚ) (hxy : x ≤ y) : roundBinary32 x ≤ roundBinary32 y := by
  unfold roundBinary32
  rcases lt_trichotomy x 0 with hx | hx | hx
  · have hx2 : ¬ (0 < x) := by linarith
    have hxp := roundBinary32Pos_pos (-x) (by linarith)
    rw [if_neg hx2, if_pos hx]
    rcases lt_trichotomy y 0 with hy | hy | hy
    · have hy2 : ¬ (0 < y) := by linarith
      rw [if_neg hy2, if_pos hy]
      have := roundBinary32Pos_mono (-y) (-x) (by linarith) (by linarith)
      linarith
    · subst hy
      simp only [lt_self_iff_false, if_false]
      linarith
    · rw [if_pos hy]
      have := roundBinary32Pos_pos y hy
      linarith
  · subst hx
    simp only [lt_self_iff_false, if_false]
    rcases eq_or_lt_of_le hxy with hy | hy
    · rw [← hy]
      simp
    · rw [if_pos hy]
      exact le_of_lt (roundBinary32Pos_pos y hy)
  · have hy : 0 < y := by linarith
    rw [if_pos hx, if_pos hy]
    exact roundBinary32Pos_mono x y hx hxy

theorem log_eq_of_binade (x : ℚ) (e : Int) (hx : 0 < x)
    (h1 : (2 : ℚ) ^ e ≤ x) (h2 : x < (2 : ℚ) ^ (e + 1)) : Int.log 2 x = e := by
  have a1 : e ≤ Int.log 2 x := by
    rw [← Int.zpow_le_iff_le_log (by norm_num) hx]
    exact_mod_cast h1
  have a2 : Int.log 2 x < e + 1 := by
    rw [← Int.lt_zpow_iff_log_lt (by norm_num) hx]
    exact_mod_cast h2
  omega

/-- A positive value whose mantissa at its own spacing is an integer is a
binary32 value: rounding leaves it as it is. -/
theorem roundBinary32Pos_of_mantissa (x : ℚ) (k : Int) (hk : x / ulp32 x = (k : ℚ)) :
    roundBinary32Pos x = x := by
  have hu := ulp32_pos x
  unfold roundBinary32Pos
  rw [hk, roundHalfEven_intCast, ← hk]
  field_simp

theorem roundBinary32_natCast (n : Nat) (hn : n < 2 ^ 24) : roundBinary32 (n : ℚ) = n := by
  rcases Nat.eq_zero_or_pos n with h0 | hpos
  · subst h0
    simp [roundBinary32]
  · have hx : (0 : ℚ) < n := by exact_mod_cast hpos
    have hlt : Int.log 2 (n : ℚ) < 24 := by
      rw [← Int.lt_zpow_iff_log_lt (by norm_num) hx]
      have : ((n : ℚ)) < (2 : ℚ) ^ (24 : ℕ) := by exact_mod_cast hn
      exact_mod_cast this
    unfold roundBinary32
    rw [if_pos hx]
    obtain ⟨j, hj⟩ : ∃ j : Nat, (j : Int) = 23 - Int.log 2 (n : ℚ) :=
      ⟨(23 - Int.log 2 (n : ℚ)).toNat, Int.toNat_of_nonneg (by omega)⟩
    have hu : ulp32 (n : ℚ) = ((2 : ℚ) ^ j)⁻¹ := by
      unfold ulp32
      rw [← zpow_natCast, ← zpow_neg, hj]
      congr 1
      omega
    apply roundBinary32Pos_of_mantissa (n : ℚ) ((n : Int) * 2 ^ j)
    rw [hu, div_inv_eq_mul]
    push_cast
    ring

/-- Rounding a positive value to binary32 moves it by at most half a
spacing, which is at most `x / 2 ^ 24`. -/
theorem roundBinary32Pos_error (x : ℚ) (hx : 0 < x) :
    |roundBinary32Pos x - x| ≤ x / 2 ^ 24 := by
  have hu := ulp32_pos x
  have hb := (binade x hx).1
  have hm := abs_roundHalfEven_sub_le (x / ulp32 x)
  have hxe : x = x / ulp32 x * ulp32 x := by field_simp
  have e1 : roundBinary32Pos x - x
      = ((roundHalfEven (x / ulp32 x) : ℚ) - x / ulp32 x) * ulp32 x := by
    unfold roundBinary32Pos
    rw [sub_mul, ← hxe]
  rw [e1, abs_mul, abs_of_pos hu]
  have h3 : |(roundHalfEven (x / ulp32 x) : ℚ) - x / ulp32 x| * ulp32 x ≤ 1 / 2 * ulp32 x :=
    mul_le_mul_of_nonneg_right hm (le_of_lt hu)
  have h4 : 1 / 2 * ulp32 x ≤ x / 2 ^ 24 := by
    rw [le_div_iff₀ (by positivity)]
    have : (1 : ℚ) / 2 * ulp32 x * 2 ^ 24 = ulp32 x * 2 ^ 23 := by ring
    rw [this]
    exact hb
  linarith

/-- Evaluation of the rounding of a positive `x` in the binade `e`, given
the integer nearest to its mantissa. -/
theorem roundBinary32_eval (x : ℚ) (e : Int) (k : Int) (hx : 0 < x)
    (h1 : (2 : ℚ) ^ e ≤ x) (h2 : x < (2 : ℚ) ^ (e + 1))
    (hk : |(k : ℚ) - x / (2 : ℚ) ^ (e - 23)| < 1 / 2) :
    roundBinary32 x = (k : ℚ) * (2 : ℚ) ^ (e - 23) := by
  unfold roundBinary32
  rw [if_pos hx]
  unfold roundBinary32Pos ulp32
  rw [log_eq_of_binade x e hx h1 h2, roundHalfEven_eq_of_close _ k hk]

/-! ## Fuel estimator -/

/-- Value `getNewGas` computes, with the constants written out. -/
theorem getNewGas_gas (p : ℚ) (s : State) :
    (getNewGas p s).gas
      = (if roundBinary32 p < 500 then 12
         else if 1200 < roundBinary32 p then 0
         else roundBinary32 (roundBinary32 (12 * roundBinary32 (1200 - roundBinary32 p)) / 700)) := by
  simp only [getNewGas, TIME_LLENO, TIME_VACIO, CAPACIDAD_COMBUSTIBLE, gt_iff_lt]
  split_ifs <;> norm_num

theorem roundBinary32_of_pos (x : ℚ) (hx : 0 < x) : roundBinary32 x = roundBinary32Pos x := by
  unfold roundBinary32
  rw [if_pos hx]

theorem roundBinary32_zero : roundBinary32 0 = 0 := by
  simp [roundBinary32]

/-- For a whole echo time between the two calibration points every `float`
operation but the division is exact. -/
theorem getNewGas_gas_between (t : Nat) (s : State) (h1 : 500 ≤ t) (h2 : t ≤ 1200) :
    (getNewGas t s).gas = roundBinary32 (12 * (1200 - (t : ℚ)) / 700) := by
  have ht : roundBinary32 (t : ℚ) = t := roundBinary32_natCast t (by omega)
  have c1 : ¬ ((t : ℚ) < 500) := by
    have : (500 : ℚ) ≤ t := by exact_mod_cast h1
    linarith
  have c2 : ¬ ((1200 : ℚ) < t) := by
    have : (t : ℚ) ≤ 1200 := by exact_mod_cast h2
    linarith
  have e1 : (1200 : ℚ) - t = ((1200 - t : Nat) : ℚ) := by
    rw [Nat.cast_sub h2]
    norm_num
  have e2 : (12 : ℚ) * ((1200 - t : Nat) : ℚ) = ((12 * (1200 - t) : Nat) : ℚ) := by
    push_cast
    ring
  rw [getNewGas_gas, ht, if_neg c1, if_neg c2, e1,
    roundBinary32_natCast (1200 - t) (by omega), e2,
    roundBinary32_natCast (12 * (1200 - t)) (by omega)]

theorem getNewGas_gas_below (t : Nat) (s : State) (h : t < 500) :
    (getNewGas t s).gas = 12 := by
  have ht : roundBinary32 (t : ℚ) = t := roundBinary32_natCast t (by omega)
  have c1 : (t : ℚ) < 500 := by exact_mod_cast h
  rw [getNewGas_gas, ht, if_pos c1]

theorem getNewGas_gas_above (t : Nat) (s : State) (h : 1200 < t) :
    (getNewGas t s).gas = 0 := by
  have h1201 : roundBinary32 ((1201 : Nat) : ℚ) = (1201 : Nat) :=
    roundBinary32_natCast 1201 (by norm_num)
  have hle : ((1201 : Nat) : ℚ) ≤ (t : ℚ) := by exact_mod_cast h
  have hm := roundBinary32_mono _ _ hle
  rw [h1201] at hm
  have c1 : ¬ (roundBinary32 (t : ℚ) < 500) := by
    push_cast at hm
    linarith
  have c2 : (1200 : ℚ) < roundBinary32 (t : ℚ) := by
    push_cast at hm
    linarith
  rw [getNewGas_gas, if_neg c1, if_pos c2]

/-- C1, as stated, fails: at the echo time 600 the exact interpolation is
`12 * 600 / 700 = 72 / 7`, which is no binary32 value; the `float` division
stores the nearest one, `10785353 / 2 ^ 20`. -/
theorem getNewGas_not_exact_at_600 :
    (getNewGas 600 initialState).gas = 10785353 / 1048576
      ∧ (getNewGas 600 initialState).gas ≠ 12 * (1200 - 600) / 700 := by
  have h : (getNewGas 600 initialState).gas = 10785353 / 1048576 := by
    have hb := getNewGas_gas_between 600 initialState (by norm_num) (by norm_num)
    have hx : (12 : ℚ) * (1200 - ((600 : Nat) : ℚ)) / 700 = 72 / 7 := by norm_num
    rw [hx] at hb
    rw [show (600 : ℚ) = ((600 : Nat) : ℚ) by norm_num, hb,
      roundBinary32_eval (72 / 7) 3 10785353 (by norm_num) (by norm_num) (by norm_num)
        (by norm_num [abs_lt])]
    norm_num
  refine ⟨h, ?_⟩
  rw [h]
  norm_num

/-- C1, amended: for every whole echo time `t` (the ultrasonic median is a
whole number of microseconds) `getNewGas` sets `gas` to 12 for `t ≤ 500`, to
0 for `t ≥ 1200`, and in between to the binary32 value nearest to
`12 * (1200 - t) / 700`; `gas` differs from the clamped interpolation by at
most its `2 ^ 24`-th part; 500 gives exactly 12, 1200 exactly 0, 850 exactly
6; and for every input the result is the one of the same chain of tests with
the repeated `timeUltrasonic > TIME_VACIO` branch left out. -/
theorem getNewGas_rounded_interpolation (t : Nat) (s : State) :
    (getNewGas t s).gas
        = (if t ≤ 500 then 12 else if 1200 ≤ t then 0
           else roundBinary32 (12 * (1200 - (t : ℚ)) / 700))
      ∧ |(getNewGas t s).gas - clampedInterpolation t| ≤ clampedInterpolation t / 2 ^ 24
      ∧ (getNewGas 500 s).gas = 12
      ∧ (getNewGas 1200 s).gas = 0
      ∧ (getNewGas 850 s).gas = 6
      ∧ (∀ p : ℚ, (getNewGas p s).gas
          = (if roundBinary32 p < TIME_LLENO then CAPACIDAD_COMBUSTIBLE
             else if roundBinary32 p > TIME_VACIO then 0
             else roundBinary32
              (roundBinary32 (CAPACIDAD_COMBUSTIBLE * roundBinary32 ( TIME_VACIO - roundBinary32 p))
                / ( TIME_VACIO - TIME_LLENO)))) := by
  have f12 : roundBinary32 (12 : ℚ) = 12 := by
    exact_mod_cast roundBinary32_natCast 12 (by norm_num)
  have f6 : roundBinary32 (6 : ℚ) = 6 := by
    exact_mod_cast roundBinary32_natCast 6 (by norm_num)
  have g500 : ∀ st : State, (getNewGas 500 st).gas = 12 := by
    intro st
    have hb := getNewGas_gas_between 500 st (by norm_num) (by norm_num)
    have hx : (12 : ℚ) * (1200 - ((500 : Nat) : ℚ)) / 700 = 12 := by norm_num
    rw [hx, f12] at hb
    exact_mod_cast hb
  have g1200 : ∀ st : State, (getNewGas 1200 st).gas = 0 := by
    intro st
    have hb := getNewGas_gas_between 1200 st (by norm_num) (by norm_num)
    have hx : (12 : ℚ) * (1200 - ((1200 : Nat) : ℚ)) / 700 = 0 := by norm_num
    rw [hx, roundBinary32_zero] at hb
    exact_mod_cast hb
  have g850 : (getNewGas 850 s).gas = 6 := by
    have hb := getNewGas_gas_between 850 s (by norm_num) (by norm_num)
    have hx : (12 : ℚ) * (1200 - ((850 : Nat) : ℚ)) / 700 = 6 := by norm_num
    rw [hx, f6] at hb
    exact_mod_cast hb
  refine ⟨?_, ?_, g500 s, g1200 s, g850, ?_⟩
  · by_cases h1 : t ≤ 500
    · rw [if_pos h1]
      rcases Nat.lt_or_ge t 500 with h | h
      · exact getNewGas_gas_below t s h
      · have : t = 500 := by omega
        subst this
        exact_mod_cast g500 s
    · rw [if_neg h1]
      by_cases h2 : 1200 ≤ t
      · rw [if_pos h2]
        rcases Nat.lt_or_ge 1200 t with h | h
        · exact getNewGas_gas_above t s h
        · have : t = 1200 := by omega
          subst this
          exact_mod_cast g1200 s
      · rw [if_neg h2]
        exact getNewGas_gas_between t s (by omega) (by omega)
  · unfold clampedInterpolation
    simp only [TIME_LLENO, TIME_VACIO, CAPACIDAD_COMBUSTIBLE, ge_iff_le]
    by_cases h1 : t ≤ 500
    · have c1 : (t : ℚ) ≤ 500 := by exact_mod_cast h1
      have hg : (getNewGas t s).gas = 12 := by
        rcases Nat.lt_or_ge t 500 with h | h
        · exact getNewGas_gas_below t s h
        · have : t = 500 := by omega
          subst this
          exact_mod_cast g500 s
      rw [if_pos c1, hg]
      norm_num
    · have c1 : ¬ ((t : ℚ) ≤ 500) := by
        have : (500 : ℚ) < t := by exact_mod_cast (Nat.lt_of_not_le h1)
        linarith
      rw [if_neg c1]
      by_cases h2 : 1200 ≤ t
      · have c2 : (1200 : ℚ) ≤ t := by exact_mod_cast h2
        have hg : (getNewGas t s).gas = 0 := by
          rcases Nat.lt_or_ge 1200 t with h | h
          · exact getNewGas_gas_above t s h
          · have : t = 1200 := by omega
            subst this
            exact_mod_cast g1200 s
        rw [if_pos c2, hg]
        norm_num
      · have c2 : ¬ ((1200 : ℚ) ≤ t) := by
          have : (t : ℚ) < 1200 := by exact_mod_cast (Nat.lt_of_not_le h2)
          linarith
        have hpos : (0 : ℚ) < 12 * (1200 - (t : ℚ)) / 700 := by
          have : (t : ℚ) < 1200 := by exact_mod_cast (Nat.lt_of_not_le h2)
          have h3 : (0 : ℚ) < 1200 - t := by linarith
          positivity
        rw [if_neg c2, getNewGas_gas_between t s (by omega) (by omega),
          roundBinary32_of_pos _ hpos]
        have he := roundBinary32Pos_error _ hpos
        have hform : (12 : ℚ) * (1200 - (t : ℚ)) / (1200 - 500) = 12 * (1200 - (t : ℚ)) / 700 := by
          norm_num
        rw [hform]
        exact he
  · intro p
    simp only [getNewGas]
    split_ifs <;> rfl

/-- The `float` expression of the last branch of `getNewGas` does not grow
with `timeUltrasonic`. -/
theorem interpolation_antitone (a b : ℚ) (h : a ≤ b) :
    roundBinary32 (roundBinary32 (12 * roundBinary32 (1200 - b)) / 700)
      ≤ roundBinary32 (roundBinary32 (12 * roundBinary32 (1200 - a)) / 700) := by
  have h1 : roundBinary32 (1200 - b) ≤ roundBinary32 (1200 - a) :=
    roundBinary32_mono _ _ (by linarith)
  have h2 : roundBinary32 (12 * roundBinary32 (1200 - b))
      ≤ roundBinary32 (12 * roundBinary32 (1200 - a)) :=
    roundBinary32_mono _ _ (by linarith)
  exact roundBinary32_mono _ _ (div_le_div_of_nonneg_right h2 (by norm_num))

/-- Between the calibration points the `float` expression of the last branch
of `getNewGas` stays in `[0, 12]`. -/
theorem interpolation_bounds (a : ℚ) (h1 : 500 ≤ a) (h2 : a ≤ 1200) :
    0 ≤ roundBinary32 (roundBinary32 (12 * roundBinary32 (1200 - a)) / 700)
      ∧ roundBinary32 (roundBinary32 (12 * roundBinary32 (1200 - a)) / 700) ≤ 12 := by
  have f12 : roundBinary32 (12 : ℚ) = 12 := by
    exact_mod_cast roundBinary32_natCast 12 (by norm_num)
  have f700 : roundBinary32 (700 : ℚ) = 700 := by
    exact_mod_cast roundBinary32_natCast 700 (by norm_num)
  have lo := interpolation_antitone a 1200 h2
  have hi := interpolation_antitone 500 a h1
  have e0 : roundBinary32 (roundBinary32 (12 * roundBinary32 (1200 - 1200)) / 700) = 0 := by
    norm_num [roundBinary32_zero]
  have e12 : roundBinary32 (roundBinary32 (12 * roundBinary32 (1200 - 500)) / 700) = 12 := by
    have f8400 : roundBinary32 (8400 : ℚ) = 8400 := by
      exact_mod_cast roundBinary32_natCast 8400 (by norm_num)
    have a1 : (1200 : ℚ) - 500 = 700 := by norm_num
    have a2 : (12 : ℚ) * 700 = 8400 := by norm_num
    have a3 : (8400 : ℚ) / 700 = 12 := by norm_num
    rw [a1, f700, a2, f8400, a3, f12]
  rw [e0] at lo
  rw [e12] at hi
  exact ⟨lo, hi⟩

/-- C2: the value `getNewGas` stores in `gas` lies in `[0, CAPACIDAD_COMBUSTIBLE]`
for both echo times, and a longer echo time never gives a larger value (no
sign restriction on the echo times is needed). -/
theorem getNewGas_bounded_antitone (t1 t2 : ℚ) (s1 s2 : State) (h : t1 ≤ t2) :
    0 ≤ (getNewGas t1 s1).gas ∧ (getNewGas t1 s1).gas ≤ CAPACIDAD_COMBUSTIBLE
      ∧ 0 ≤ (getNewGas t2 s2).gas ∧ (getNewGas t2 s2).gas ≤ CAPACIDAD_COMBUSTIBLE
      ∧ (getNewGas t2 s2).gas ≤ (getNewGas t1 s1).gas := by
  have hm : roundBinary32 t1 ≤ roundBinary32 t2 := roundBinary32_mono _ _ h
  have hrange : ∀ (t : ℚ) (s : State),
      0 ≤ (getNewGas t s).gas ∧ (getNewGas t s).gas ≤ 12 := by
    intro t s
    rw [getNewGas_gas]
    split_ifs with c1 c2
    · exact ⟨by norm_num, le_refl _⟩
    · exact ⟨le_refl _, by norm_num⟩
    · exact interpolation_bounds _ (by linarith) (by linarith)
  obtain ⟨r1, r2⟩ := hrange t1 s1
  obtain ⟨r3, r4⟩ := hrange t2 s2
  refine ⟨r1, r2, r3, r4, ?_⟩
  rw [getNewGas_gas] at r1 r2 r3 r4 ⊢
  rw [getNewGas_gas t1 s1]
  by_cases a1 : roundBinary32 t1 < 500
  · rw [if_pos a1]
    exact r4
  · rw [if_neg a1] at r1 ⊢
    have b1 : ¬ (roundBinary32 t2 < 500) := by linarith
    rw [if_neg b1] at r3 ⊢
    by_cases b2 : 1200 < roundBinary32 t2
    · rw [if_pos b2]
      exact r1
    · have a2 : ¬ (1200 < roundBinary32 t1) := by linarith
      rw [if_neg b2, if_neg a2]
      exact interpolation_antitone _ _ hm

/-- Witness for C2 at the echo times 600 and 900. -/
theorem getNewGas_bounded_antitone_witness :
    (600 : ℚ) ≤ 900
      ∧ 0 ≤ (getNewGas 600 initialState).gas
      ∧ (getNewGas 600 initialState).gas ≤ CAPACIDAD_COMBUSTIBLE
      ∧ 0 ≤ (getNewGas 900 initialState).gas
      ∧ (getNewGas 900 initialState).gas ≤ CAPACIDAD_COMBUSTIBLE
      ∧ (getNewGas 900 initialState).gas ≤ (getNewGas 600 initialState).gas :=
  ⟨by norm_num, getNewGas_bounded_antitone 600 900 initialState initialState (by norm_num)⟩

/-! ## Effect of the sensor reads on `index` and on the buffers -/

theorem readCurrent_index (inp : PassInput) (s : State) :
    (readCurrent inp s).index = s.index := by
  unfold readCurrent getNewCurrent
  split_ifs <;> rfl

theorem readRaindrop_index (inp : PassInput) (s : State) :
    (readRaindrop inp s).index = s.index := by
  unfold readRaindrop getNewRaindrop
  split_ifs <;> rfl

theorem readGas_index (inp : PassInput) (s : State) :
    (readGas inp s).index = s.index := by
  unfold readGas getNewGas
  split_ifs <;> rfl

theorem readGPS_index (s : State) : (readGPS s).index = s.index := by
  unfold readGPS getNewGPS
  split_ifs <;> rfl

theorem readPhase_index (inp : PassInput) (s : State) :
    (readPhase inp s).index = s.index := by
  unfold readPhase readSensors
  split_ifs
  · rw [readGPS_index, readGas_index, readRaindrop_index, readCurrent_index]
  · rfl

theorem runFrom_concat (s : State) (inps : List PassInput) (inp : PassInput) :
    runFrom s (inps ++ [inp]) = loop inp (runFrom s inps) := by
  simp [runFrom, List.foldl_append]

theorem run_concat (inps : List PassInput) (inp : PassInput) :
    run (inps ++ [inp]) = loop inp (run inps) :=
  runFrom_concat initialState inps inp

theorem fastSinceReset_concat (inps : List PassInput) (inp : PassInput) :
    fastSinceReset (inps ++ [inp])
      = (if inp.slowDue then 0 else fastSinceReset inps) + (if inp.fastDue then 1 else 0) := by
  simp [fastSinceReset, List.foldl_append]

theorem wrapInt16_succ (n : Int) : wrapInt16 (wrapInt16 n + 1) = wrapInt16 (n + 1) := by
  unfold wrapInt16
  omega

theorem wrapInt16_of_range (n : Int) (h0 : -32768 ≤ n) (h1 : n ≤ 32767) : wrapInt16 n = n := by
  unfold wrapInt16
  omega

/-- The `index` after one pass, from the `index` before it. -/
theorem loop_index (inp : PassInput) (s : State) :
    (loop inp s).index
      = (if inp.fastDue then wrapInt16 ((if inp.slowDue then 0 else s.index) + 1)
         else (if inp.slowDue then 0 else s.index)) := by
  unfold loop
  rw [readPhase_index]
  unfold fastPhase slowPhase sensorTick reportTick refreshAllSensors stopRefreshingAllSensors
  split_ifs <;> rfl

/-- In every reachable state `index` is the 16 bit value of the number of
fast ticks since the latest slow tick. -/
theorem run_index (inps : List PassInput) :
    (run inps).index = wrapInt16 (fastSinceReset inps) := by
  induction inps using List.reverseRecOn with
  | nil => rfl
  | append_singleton inps inp ih =>
    rw [run_concat, loop_index, fastSinceReset_concat, ih]
    have h0 : wrapInt16 0 = 0 := rfl
    split_ifs <;> simp [wrapInt16_succ, h0]

/-! ## The write index -/

/-- C4, as stated, fails: thirteen fast ticks with no slow tick in between
leave `index = 13 = ARRAY_SIZE`. -/
theorem index_reaches_ARRAY_SIZE :
    (run (List.replicate 13 (fastPass 0 0 0))).index = 13
      ∧ ¬ (0 ≤ (run (List.replicate 13 (fastPass 0 0 0))).index
            ∧ (run (List.replicate 13 (fastPass 0 0 0))).index < ARRAY_SIZE) := by
  have h : (run (List.replicate 13 (fastPass 0 0 0))).index = 13 := by
    rw [run_index]
    decide
  rw [h]
  decide

/-- C4, amended: in a state reached by passes with at most 32767 fast ticks
since the latest slow tick, `index` is that number of fast ticks; so
`0 ≤ index < ARRAY_SIZE = 13` holds exactly when fewer than 13 fast ticks
have fired since the latest slow tick. -/
theorem index_counts_fast_ticks (inps : List PassInput)
    (h : fastSinceReset inps ≤ 32767) :
    (run inps).index = fastSinceReset inps
      ∧ ARRAY_SIZE = 13
      ∧ ((0 ≤ (run inps).index ∧ (run inps).index < ARRAY_SIZE) ↔ fastSinceReset inps < 13) := by
  have hi : (run inps).index = fastSinceReset inps := by
    rw [run_index]
    exact wrapInt16_of_range _ (by omega) (by omega)
  have ha : ARRAY_SIZE = 13 := by decide
  refine ⟨hi, ha, ?_⟩
  rw [hi, ha]
  omega

/-- Witness for C4 amended: ten fast ticks, then a pass with both ticks,
then one more fast tick. -/
theorem index_counts_fast_ticks_witness :
    fastSinceReset sampleCycle ≤ 32767
      ∧ ((run sampleCycle).index = fastSinceReset sampleCycle
        ∧ ARRAY_SIZE = 13
        ∧ ((0 ≤ (run sampleCycle).index ∧ (run sampleCycle).index < ARRAY_SIZE)
            ↔ fastSinceReset sampleCycle < 13)) :=
  ⟨by decide, index_counts_fast_ticks sampleCycle (by decide)⟩

/-! ## Stores stay inside the buffers -/

theorem getNewCurrent_trace (irms : ℚ) (s : State) :
    (getNewCurrent irms s).trace
      = s.trace ++ [Event.callCurrent (if s.index < ARRAY_SIZE then some s.index else none)] := by
  unfold getNewCurrent
  split_ifs <;> rfl

theorem getNewRaindrop_trace (adc : Int) (s : State) :
    (getNewRaindrop adc s).trace
      = s.trace ++ [Event.callRaindrop (if s.index < ARRAY_SIZE then some s.index else none)] := by
  unfold getNewRaindrop
  split_ifs <;> rfl

theorem getNewGas_trace (t : ℚ) (s : State) :
    (getNewGas t s).trace = s.trace ++ [Event.callGas] := rfl

theorem getNewGPS_trace (s : State) :
    (getNewGPS s).trace = s.trace ++ [Event.callGPS] := rfl

theorem readCurrent_trace (inp : PassInput) (s : State) (e : Event)
    (he : e ∈ (readCurrent inp s).trace) :
    e ∈ s.trace ∨ e = Event.callCurrent none
      ∨ (e = Event.callCurrent (some s.index) ∧ s.index < ARRAY_SIZE) := by
  unfold readCurrent at he
  split at he
  · rw [getNewCurrent_trace, List.mem_append, List.mem_singleton] at he
    rcases he with he | he
    · exact Or.inl he
    · by_cases h2 : s.index < ARRAY_SIZE
      · rw [if_pos h2] at he
        exact Or.inr (Or.inr ⟨he, h2⟩)
      · rw [if_neg h2] at he
        exact Or.inr (Or.inl he)
  · exact Or.inl he

theorem readRaindrop_trace (inp : PassInput) (s : State) (e : Event)
    (he : e ∈ (readRaindrop inp s).trace) :
    e ∈ s.trace ∨ e = Event.callRaindrop none
      ∨ (e = Event.callRaindrop (some s.index) ∧ s.index < ARRAY_SIZE) := by
  unfold readRaindrop at he
  split at he
  · rw [getNewRaindrop_trace, List.mem_append, List.mem_singleton] at he
    rcases he with he | he
    · exact Or.inl he
    · by_cases h2 : s.index < ARRAY_SIZE
      · rw [if_pos h2] at he
        exact Or.inr (Or.inr ⟨he, h2⟩)
      · rw [if_neg h2] at he
        exact Or.inr (Or.inl he)
  · exact Or.inl he

theorem readGas_trace (inp : PassInput) (s : State) (e : Event)
    (he : e ∈ (readGas inp s).trace) : e ∈ s.trace ∨ e = Event.callGas := by
  unfold readGas at he
  split at he
  · rwa [getNewGas_trace, List.mem_append, List.mem_singleton] at he
  · exact Or.inl he

theorem readGPS_trace (s : State) (e : Event)
    (he : e ∈ (readGPS s).trace) : e ∈ s.trace ∨ e = Event.callGPS := by
  unfold readGPS at he
  split at he
  · rwa [getNewGPS_trace, List.mem_append, List.mem_singleton] at he
  · exact Or.inl he

/-- With a non-negative `index`, the sensor reads of a pass record only
stores inside the arrays. -/
theorem readPhase_storeInBounds (inp : PassInput) (s : State) (h0 : 0 ≤ s.index)
    (hs : ∀ e ∈ s.trace, Event.storeInBounds e = true) :
    ∀ e ∈ (readPhase inp s).trace, Event.storeInBounds e = true := by
  intro e he
  unfold readPhase readSensors at he
  split_ifs at he
  · rcases readGPS_trace _ e he with he | he
    · rcases readGas_trace _ _ e he with he | he
      · rcases readRaindrop_trace _ _ e he with he | he | ⟨he, hlt⟩
        · rcases readCurrent_trace _ _ e he with he | he | ⟨he, hlt⟩
          · exact hs e he
          · rw [he]; rfl
          · rw [he]; simp [Event.storeInBounds, h0, hlt]
        · rw [he]; rfl
        · rw [readCurrent_index] at he hlt
          rw [he]; simp [Event.storeInBounds, h0, hlt]
      · rw [he]; rfl
    · rw [he]; rfl
  · exact hs e he

theorem tickPhases_trace (inp : PassInput) (s : State) (e : Event)
    (he : e ∈ (fastPhase inp (slowPhase inp s)).trace) :
    e ∈ s.trace ∨ e = Event.slowTick ∨ e = Event.fastTick := by
  unfold fastPhase slowPhase sensorTick reportTick refreshAllSensors
    stopRefreshingAllSensors at he
  split_ifs at he
  all_goals
    try simp only [List.mem_append, List.mem_singleton] at he
    tauto

theorem fastSinceReset_le_length (inps : List PassInput) :
    fastSinceReset inps ≤ inps.length := by
  induction inps using List.reverseRecOn with
  | nil => exact Nat.le_refl 0
  | append_singleton inps inp ih =>
    rw [fastSinceReset_concat, List.length_append, List.length_singleton]
    split_ifs <;> omega

theorem fastSinceReset_replicate_fastPass (n : Nat) (a : ℚ) (b : Int) (c : ℚ) :
    fastSinceReset (List.replicate n (fastPass a b c)) = n := by
  induction n with
  | zero => rfl
  | succ n ih =>
    rw [List.replicate_succ', fastSinceReset_concat, ih]
    rfl

/-- While the number of fast ticks since the latest slow tick has stayed
within the range of `int`, every store recorded in the run is inside the
arrays. -/
theorem run_storeInBounds (inps : List PassInput)
    (h : ∀ q, q <+: inps → fastSinceReset q ≤ 32767) :
    ∀ e ∈ (run inps).trace, Event.storeInBounds e = true := by
  induction inps using List.reverseRecOn with
  | nil =>
    intro e he
    cases he
  | append_singleton inps inp ih =>
    have ih1 := ih (fun q hq => h q (hq.trans (List.prefix_append inps [inp])))
    have hidx : (fastPhase inp (slowPhase inp (run inps))).index
        = (fastSinceReset (inps ++ [inp]) : Int) := by
      rw [← readPhase_index inp, ← loop, ← run_concat, run_index]
      have hb := h (inps ++ [inp]) (List.prefix_refl _)
      exact wrapInt16_of_range _ (by omega) (by omega)
    rw [run_concat, loop]
    apply readPhase_storeInBounds
    · rw [hidx]
      exact Int.ofNat_nonneg _
    · intro e he
      rcases tickPhases_trace inp (run inps) e he with he | he | he
      · exact ih1 e he
      · rw [he]; rfl
      · rw [he]; rfl

theorem getNewCurrent_full (irms : ℚ) (s : State) (h : ARRAY_SIZE ≤ s.index) :
    getNewCurrent irms s
      = { s with
          refreshRequested := (false, s.refreshRequested.2)
          trace := s.trace ++ [Event.callCurrent none] } := by
  unfold getNewCurrent
  rw [if_neg (not_lt.mpr h)]

theorem getNewRaindrop_full (adc : Int) (s : State) (h : ARRAY_SIZE ≤ s.index) :
    getNewRaindrop adc s
      = { s with
          refreshRequested := (s.refreshRequested.1, false)
          trace := s.trace ++ [Event.callRaindrop none] } := by
  unfold getNewRaindrop
  rw [if_neg (not_lt.mpr h)]

theorem readSensors_trace_of_readCurrent (inp : PassInput) (s : State) (e : Event)
    (he : e ∈ (readCurrent inp s).trace) : e ∈ (readSensors inp s).trace := by
  have h1 : e ∈ (readRaindrop inp (readCurrent inp s)).trace := by
    unfold readRaindrop
    split
    · rw [getNewRaindrop_trace]
      exact List.mem_append_left _ he
    · exact he
  have h2 : e ∈ (readGas inp (readRaindrop inp (readCurrent inp s))).trace := by
    unfold readGas
    split
    · rw [getNewGas_trace]
      exact List.mem_append_left _ h1
    · exact h1
  unfold readSensors readGPS
  split
  · rw [getNewGPS_trace]
    exact List.mem_append_left _ h2
  · exact h2

/-- A fast tick at `index = INT_MAX` wraps `index` to `-32768`; the guard
`index < ARRAY_SIZE` holds and `getNewCurrent` stores to slot `-32768`. -/
theorem loop_store_after_wrap (s : State) (hidx : s.index = 32767) :
    Event.callCurrent (some (-32768)) ∈ (loop (fastPass 0 0 0) s).trace := by
  have hphase : loop (fastPass 0 0 0) s = readSensors (fastPass 0 0 0) (sensorTick s) := rfl
  rw [hphase]
  apply readSensors_trace_of_readCurrent
  have hread : readCurrent (fastPass 0 0 0) (sensorTick s)
      = getNewCurrent 0 (sensorTick s) := rfl
  have hi : (sensorTick s).index = -32768 := by
    show wrapInt16 (s.index + 1) = -32768
    rw [hidx]
    rfl
  rw [hread, getNewCurrent_trace, hi]
  exact List.mem_append_right _ (List.mem_singleton.mpr rfl)

theorem replicate_fastPass_index (n : Nat) (hn : n ≤ 32767) :
    (run (List.replicate n (fastPass 0 0 0))).index = n := by
  rw [run_index, fastSinceReset_replicate_fastPass]
  exact wrapInt16_of_range _ (by omega) (by omega)

/-- After 32768 fast ticks without a slow tick the run has stored to slot
`-32768`. -/
theorem overflow_store_event (n : Nat) (hn : n = 32767) :
    Event.callCurrent (some (-32768))
      ∈ (run (List.replicate (n + 1) (fastPass 0 0 0))).trace := by
  rw [List.replicate_succ', run_concat]
  apply loop_store_after_wrap
  rw [replicate_fastPass_index n (by omega), hn]
  rfl

/-- C3, as stated, fails: 32768 passes in which only the fast tick fires
(no slow tick, no alert) make `index++` leave the range of the 16 bit `int`;
`index` is then `-32768`, the guard `index < ARRAY_SIZE` holds, and
`getNewCurrent` stores to slot `-32768`, outside the array. -/
theorem store_out_of_bounds_after_overflow :
    Event.callCurrent (some (-32768)) ∈ (run (List.replicate 32768 (fastPass 0 0 0))).trace
      ∧ ¬ (∀ e ∈ (run (List.replicate 32768 (fastPass 0 0 0))).trace,
            Event.storeInBounds e = true) := by
  have hmem : Event.callCurrent (some (-32768))
      ∈ (run (List.replicate 32768 (fastPass 0 0 0))).trace :=
    overflow_store_event 32767 rfl
  refine ⟨hmem, fun hall => ?_⟩
  have hb := hall _ hmem
  exact absurd hb (by decide)

/-- C3, amended: for every sequence of loop passes (any pattern of ticks
and alert activity) in which at most 32767 fast ticks fire after each slow
tick, and before the first, every store of `getNewCurrent` and
`getNewRaindrop` is to a slot `i` with `0 ≤ i < ARRAY_SIZE`; and whenever
`index ≥ ARRAY_SIZE` a call of `getNewCurrent` or `getNewRaindrop` changes
nothing but that sensor's refresh flag, which it clears (the call is
recorded in the trace with no store). -/
theorem stores_in_bounds (inps : List PassInput)
    (h : ∀ q, q <+: inps → fastSinceReset q ≤ 32767) :
    (∀ e ∈ (run inps).trace, Event.storeInBounds e = true)
      ∧ (∀ (s : State) (irms : ℚ), ARRAY_SIZE ≤ s.index →
          getNewCurrent irms s
            = { s with
                refreshRequested := (false, s.refreshRequested.2)
                trace := s.trace ++ [Event.callCurrent none] })
      ∧ (∀ (s : State) (adc : Int), ARRAY_SIZE ≤ s.index →
          getNewRaindrop adc s
            = { s with
                refreshRequested := (s.refreshRequested.1, false)
                trace := s.trace ++ [Event.callRaindrop none] }) :=
  ⟨run_storeInBounds inps h, fun s irms hs => getNewCurrent_full irms s hs,
    fun s adc hs => getNewRaindrop_full adc s hs⟩

/-- Witness for C3 amended on the twelve passes of `sampleCycle`. -/
theorem stores_in_bounds_witness :
    (∀ q, q <+: sampleCycle → fastSinceReset q ≤ 32767)
      ∧ ((∀ e ∈ (run sampleCycle).trace, Event.storeInBounds e = true)
        ∧ (∀ (s : State) (irms : ℚ), ARRAY_SIZE ≤ s.index →
            getNewCurrent irms s
              = { s with
                  refreshRequested := (false, s.refreshRequested.2)
                  trace := s.trace ++ [Event.callCurrent none] })
        ∧ (∀ (s : State) (adc : Int), ARRAY_SIZE ≤ s.index →
            getNewRaindrop adc s
              = { s with
                  refreshRequested := (s.refreshRequested.1, false)
                  trace := s.trace ++ [Event.callRaindrop none] })) :=
  have hq : ∀ q, q <+: sampleCycle → fastSinceReset q ≤ 32767 := fun q hq =>
    le_trans (fastSinceReset_le_length q)
      (le_trans hq.length_le (by decide))
  ⟨hq, stores_in_bounds sampleCycle hq⟩

/-! ## Where the readings of a cycle land -/

/-- Storing at slot `m`, right behind the `m` slots of `front`. -/
theorem store_behind {α : Type} (front cur : List α) (m : Nat) (v : α)
    (hf : front.length = m) (hm : m < cur.length) :
    store (front ++ cur.drop m) (m : Int) v = (front ++ [v]) ++ cur.drop (m + 1) := by
  unfold store
  rw [if_pos (Int.ofNat_nonneg m), Int.toNat_ofNat, List.set_append_right m v (le_of_eq hf), hf,
    Nat.sub_self, List.drop_eq_getElem_cons hm, List.set_cons_zero, List.append_assoc]
  rfl

theorem getNewCurrent_currents (irms : ℚ) (s : State) :
    (getNewCurrent irms s).currents
      = (if s.index < ARRAY_SIZE then store s.currents s.index irms else s.currents) := by
  unfold getNewCurrent
  split_ifs <;> rfl

theorem getNewCurrent_raindrops (irms : ℚ) (s : State) :
    (getNewCurrent irms s).raindrops = s.raindrops := by
  unfold getNewCurrent
  split_ifs <;> rfl

theorem getNewCurrent_refreshRequested (irms : ℚ) (s : State) :
    (getNewCurrent irms s).refreshRequested = (false, s.refreshRequested.2) := by
  unfold getNewCurrent
  split_ifs <;> rfl

theorem getNewRaindrop_raindrops (adc : Int) (s : State) :
    (getNewRaindrop adc s).raindrops
      = (if s.index < ARRAY_SIZE then
          store s.raindrops s.index (if adc < LLUVIA_THRESHOLD_10BIT then 1 else 0)
         else s.raindrops) := by
  have hL : ¬ (LLUVIA_ACTIVO = HIGH) := by decide
  unfold getNewRaindrop
  split_ifs <;> rfl

theorem getNewRaindrop_currents (adc : Int) (s : State) :
    (getNewRaindrop adc s).currents = s.currents := by
  unfold getNewRaindrop
  split_ifs <;> rfl

theorem getNewRaindrop_refreshRequested (adc : Int) (s : State) :
    (getNewRaindrop adc s).refreshRequested = (s.refreshRequested.1, false) := by
  unfold getNewRaindrop
  split_ifs <;> rfl

theorem readRaindrop_currents (inp : PassInput) (s : State) :
    (readRaindrop inp s).currents = s.currents := by
  unfold readRaindrop
  split
  · exact getNewRaindrop_currents _ s
  · rfl

theorem readGas_currents (inp : PassInput) (s : State) :
    (readGas inp s).currents = s.currents := by
  unfold readGas
  split <;> rfl

theorem readGas_raindrops (inp : PassInput) (s : State) :
    (readGas inp s).raindrops = s.raindrops := by
  unfold readGas
  split <;> rfl

theorem readGPS_currents (s : State) : (readGPS s).currents = s.currents := by
  unfold readGPS
  split <;> rfl

theorem readGPS_raindrops (s : State) : (readGPS s).raindrops = s.raindrops := by
  unfold readGPS
  split <;> rfl

/-- A pass in which only the fast tick fires and no alert is active:
`index` advances and both readings are stored at the advanced `index`. -/
theorem loop_fast_idle (inp : PassInput) (s : State)
    (h1 : inp.slowDue = false) (h2 : inp.fastDue = true) (h3 : inp.alertIdle = true)
    (h0 : 0 ≤ s.index) (hlt : s.index + 1 < ARRAY_SIZE) :
    (loop inp s).index = s.index + 1
      ∧ (loop inp s).currents = store s.currents (s.index + 1) inp.irms
      ∧ (loop inp s).raindrops
          = store s.raindrops (s.index + 1) (if inp.adc < 512 then 1 else 0) := by
  have ha : ARRAY_SIZE = 13 := by decide
  have hw : wrapInt16 (s.index + 1) = s.index + 1 :=
    wrapInt16_of_range _ (by omega) (by omega)
  have hidx : (sensorTick s).index = s.index + 1 := hw
  have hlt2 : (sensorTick s).index < ARRAY_SIZE := by rw [hidx]; exact hlt
  have hloop : loop inp s = readSensors inp (sensorTick s) := by
    unfold loop slowPhase fastPhase readPhase
    rw [h1, h2, h3]
    rfl
  have hcur : readCurrent inp (sensorTick s) = getNewCurrent inp.irms (sensorTick s) := rfl
  have hrain : readRaindrop inp (getNewCurrent inp.irms (sensorTick s))
      = getNewRaindrop inp.adc (getNewCurrent inp.irms (sensorTick s)) := by
    unfold readRaindrop
    rw [getNewCurrent_refreshRequested]
    rfl
  have hi1 : (getNewCurrent inp.irms (sensorTick s)).index = (sensorTick s).index := by
    rw [← hcur, readCurrent_index]
  refine ⟨?_, ?_, ?_⟩
  · rw [← hidx, ← readPhase_index inp (sensorTick s)]
    unfold readPhase
    rw [h3, ← hloop]
    rfl
  · rw [hloop]
    unfold readSensors
    rw [readGPS_currents, readGas_currents, readRaindrop_currents, hcur,
      getNewCurrent_currents, if_pos hlt2, hidx]
    rfl
  · rw [hloop]
    unfold readSensors
    rw [readGPS_raindrops, readGas_raindrops, hcur, hrain, getNewRaindrop_raindrops, hi1,
      if_pos hlt2, hidx, getNewCurrent_raindrops]
    rfl

/-- C5, as stated, fails: from the initial state (index 0, no refresh
request pending) one fast tick with its reads, no alert active and a current
reading of 5, leaves `index = 1` with the reading in slot 1; the only slot
below the write index, slot 0, still holds the sentinel 0 and not the
reading. -/
theorem first_reading_not_in_slot_zero :
    (run [fastPass 5 300 850]).index = 1
      ∧ (run [fastPass 5 300 850]).currents = [0, 5, 0, 0, 0, 0, 0, 0, 0, 0, 0, 0, 0]
      ∧ (run [fastPass 5 300 850]).raindrops = [-1, 1, 0, 0, 0, 0, 0, 0, 0, 0, 0, 0, 0]
      ∧ ¬ ((run [fastPass 5 300 850]).currents.take (run [fastPass 5 300 850]).index.toNat
            = [5]) := by
  refine ⟨by decide, by decide, by decide, ?_⟩
  decide

/-- C5, amended: from a state with `index = 0` and buffers of `ARRAY_SIZE`
slots, after `k < ARRAY_SIZE` passes in each of which only the fast tick
fires and no alert is active, `index = k`, slots `1 .. k` of the current
buffer hold the `k` readings in order (the first reading in slot 1, the
latest in slot `index`), and slot 0 and the slots above `k` hold what they
held before; the same for the rain buffer, a reading below
`LLUVIA_THRESHOLD_10BIT = 512` being stored as 1 and any other as 0. -/
theorem readings_land_from_slot_one (s : State) (inps : List PassInput)
    (hidx : s.index = 0)
    (hc : (s.currents.length : Int) = ARRAY_SIZE)
    (hr : (s.raindrops.length : Int) = ARRAY_SIZE)
    (hp : ∀ inp ∈ inps, inp.slowDue = false ∧ inp.fastDue = true ∧ inp.alertIdle = true)
    (hk : (inps.length : Int) < ARRAY_SIZE) :
    (runFrom s inps).index = inps.length
      ∧ (runFrom s inps).currents
          = s.currents.take 1 ++ inps.map PassInput.irms ++ s.currents.drop (inps.length + 1)
      ∧ (runFrom s inps).raindrops
          = s.raindrops.take 1 ++ inps.map (fun inp => if inp.adc < 512 then 1 else 0)
              ++ s.raindrops.drop (inps.length + 1) := by
  have ha : ARRAY_SIZE = 13 := by decide
  rw [ha] at hc hr hk
  induction inps using List.reverseRecOn with
  | nil =>
    refine ⟨hidx, ?_, ?_⟩
    · simpa [runFrom] using (List.take_append_drop 1 s.currents).symm
    · simpa [runFrom] using (List.take_append_drop 1 s.raindrops).symm
  | append_singleton inps inp ih =>
    rw [List.length_append, List.length_singleton] at hk
    obtain ⟨ih1, ih2, ih3⟩ :=
      ih (fun q hq => hp q (List.mem_append_left _ hq)) (by omega)
    obtain ⟨h1, h2, h3⟩ := hp inp (List.mem_append_right _ (List.mem_singleton.mpr rfl))
    obtain ⟨r1, r2, r3⟩ := loop_fast_idle inp (runFrom s inps) h1 h2 h3
      (by rw [ih1]; exact Int.ofNat_nonneg _) (by rw [ih1, ha]; omega)
    have hcast : (runFrom s inps).index + 1 = ((inps.length + 1 : Nat) : Int) := by
      rw [ih1]; rfl
    rw [runFrom_concat, List.length_append, List.length_singleton, List.map_append,
      List.map_append]
    refine ⟨?_, ?_, ?_⟩
    · rw [r1, hcast]
    · rw [r2, ih2, hcast]
      have hlen : (s.currents.take 1 ++ inps.map PassInput.irms).length = inps.length + 1 := by
        rw [List.length_append, List.length_take, List.length_map]
        omega
      rw [store_behind _ s.currents (inps.length + 1) inp.irms hlen (by omega)]
      simp
    · rw [r3, ih3, hcast]
      have hlen : (s.raindrops.take 1
          ++ inps.map (fun inp => if inp.adc < 512 then (1 : Int) else 0)).length
            = inps.length + 1 := by
        rw [List.length_append, List.length_take, List.length_map]
        omega
      rw [store_behind _ s.raindrops (inps.length + 1) _ hlen (by omega)]
      simp

/-- Witness for C5 amended: three fast ticks from the initial state with the
current readings 1, 2, 3 and the rain readings 300, 700, 300. -/
theorem readings_land_from_slot_one_witness :
    (initialState.index = 0
      ∧ (initialState.currents.length : Int) = ARRAY_SIZE
      ∧ (initialState.raindrops.length : Int) = ARRAY_SIZE
      ∧ (∀ inp ∈ threeReadings,
          inp.slowDue = false ∧ inp.fastDue = true ∧ inp.alertIdle = true)
      ∧ (threeReadings.length : Int) < ARRAY_SIZE)
    ∧ ((runFrom initialState threeReadings).index = threeReadings.length
      ∧ (runFrom initialState threeReadings).currents
          = initialState.currents.take 1 ++ threeReadings.map PassInput.irms
              ++ initialState.currents.drop (threeReadings.length + 1)
      ∧ (runFrom initialState threeReadings).raindrops
          = initialState.raindrops.take 1
              ++ threeReadings.map (fun inp => if inp.adc < 512 then 1 else 0)
              ++ initialState.raindrops.drop (threeReadings.length + 1)) :=
  have hp : ∀ inp ∈ threeReadings,
      inp.slowDue = false ∧ inp.fastDue = true ∧ inp.alertIdle = true := by
    intro inp hin
    simp only [threeReadings, List.mem_cons, List.mem_singleton, List.not_mem_nil,
      or_false] at hin
    rcases hin with h | h | h <;> rw [h] <;> exact ⟨rfl, rfl, rfl⟩
  ⟨⟨rfl, by decide, by decide, hp, by decide⟩,
    readings_land_from_slot_one initialState threeReadings rfl (by decide) (by decide) hp
      (by decide)⟩

/-! ## Buffers at process start and after a report -/

/-- C6, evaluated on the code: at process start `index` is 0 and every slot
of `currents` holds 0.0, but the initialiser `{-1}` of `raindrops` sets only
slot 0 to `-1`; slots 1 to 12 hold 0 (dry). After the report tick all
thirteen rain slots hold `-1`, so the buffers at process start are not the
buffers after a flush. -/
theorem initial_raindrops_not_all_unknown :
    initialState.index = 0
      ∧ initialState.currents = List.replicate 13 0
      ∧ initialState.raindrops = [-1, 0, 0, 0, 0, 0, 0, 0, 0, 0, 0, 0, 0]
      ∧ (reportTick initialState).index = 0
      ∧ (reportTick initialState).currents = List.replicate 13 0
      ∧ (reportTick initialState).raindrops = List.replicate 13 (-1)
      ∧ initialState.raindrops ≠ (reportTick initialState).raindrops
      ∧ ¬ (∀ v ∈ initialState.raindrops, v = -1) := by
  refine ⟨rfl, by decide, by decide, rfl, by decide, by decide, by decide, by decide⟩

/-! ## GPS request flag -/

/-- C9, evaluated on the code: `getNewGPS` leaves `GPSRequested` as it is,
the fast tick sets it and the report tick does not touch it; the flag is
true at start and so stays true for ever. In three passes from the start with
no tick due and no alert active `getNewGPS` runs three times. -/
theorem getNewGPS_runs_every_pass :
    (run [idlePass, idlePass, idlePass]).trace
        = [Event.callGas, Event.callGPS, Event.callGPS, Event.callGPS]
      ∧ (run [idlePass, idlePass, idlePass]).GPSRequested = true
      ∧ (∀ s : State, (getNewGPS s).GPSRequested = s.GPSRequested)
      ∧ (∀ s : State, (sensorTick s).GPSRequested = true)
      ∧ (∀ s : State, (reportTick s).GPSRequested = s.GPSRequested) := by
  refine ⟨by decide, by decide, fun _ => rfl, fun _ => rfl, fun _ => rfl⟩

/-! ## Broadcast id -/

theorem BROADCAST_ID_of_fits (x : Int) (hx : 0 ≤ x)
    (hfit : x - x % 10000 + 9999 ≤ literalMax x) :
    BROADCAST_ID x = x - x % 10000 + 9999 := by
  unfold BROADCAST_ID
  rw [Int.tmod_eq_emod hx (by decide)]
  unfold literalMax at hfit ⊢
  unfold wrapSigned
  split_ifs at hfit ⊢ <;> omega

/-- C10, as stated, fails: the literal 30009 is an `int`, 16 bits wide on
the AVR target, and `30009 - 30009 % 10000 + 9999 = 39999` does not fit; the
macro gives `-25537`, whose four low-order digits are not 9999 and whose
higher digits are not those of 30009. -/
theorem BROADCAST_ID_overflows_at_30009 :
    BROADCAST_ID 30009 = -25537
      ∧ ¬ (BROADCAST_ID 30009 % 10000 = 9999)
      ∧ ¬ (BROADCAST_ID 30009 / 10000 = 30009 / 10000) := by
  decide

/-- C10, amended: for a non-negative id `d` whose broadcast value
`d - d % 10000 + 9999` fits the integer type of the literal `d` (at most 32767
for `d ≤ 32767`, at most `2 ^ 31 - 1` for `d ≤ 2 ^ 31 - 1`, at most `2 ^ 63 - 1`
above), the broadcast id keeps the digits of `d` above the four low-order
ones and has 9999 as its four low-order digits; two such ids have the same
broadcast id exactly when they agree above the four low-order digits; taking
the broadcast id twice changes nothing; and the broadcast id of
`DEVICE_ID = 20009` is 29999, not the id itself. -/
theorem BROADCAST_ID_digits (d : Int) (hd : 0 ≤ d)
    (hfit : d - d % 10000 + 9999 ≤ literalMax d) :
    BROADCAST_ID d = d - d % 10000 + 9999
      ∧ BROADCAST_ID d / 10000 = d / 10000
      ∧ BROADCAST_ID d % 10000 = 9999
      ∧ (∀ d2 : Int, 0 ≤ d2 → d2 - d2 % 10000 + 9999 ≤ literalMax d2 →
          (BROADCAST_ID d = BROADCAST_ID d2 ↔ d / 10000 = d2 / 10000))
      ∧ BROADCAST_ID (BROADCAST_ID d) = BROADCAST_ID d
      ∧ BROADCAST_ID DEVICE_ID = 29999
      ∧ BROADCAST_ID DEVICE_ID ≠ DEVICE_ID := by
  have hb := BROADCAST_ID_of_fits d hd hfit
  have hnn : 0 ≤ d - d % 10000 + 9999 := by omega
  have hfit2 : (d - d % 10000 + 9999) - (d - d % 10000 + 9999) % 10000 + 9999
      ≤ literalMax (d - d % 10000 + 9999) := by
    unfold literalMax at hfit ⊢
    split_ifs at hfit ⊢ <;> omega
  refine ⟨hb, ?_, ?_, ?_, ?_, by decide, by decide⟩
  · rw [hb]
    omega
  · rw [hb]
    omega
  · intro d2 hd2 hfitd2
    rw [hb, BROADCAST_ID_of_fits d2 hd2 hfitd2]
    omega
  · rw [hb, BROADCAST_ID_of_fits _ hnn hfit2]
    omega

/-- Witness for C10 amended at the id 123456, a `long` literal, whose
broadcast id is 129999. -/
theorem BROADCAST_ID_digits_witness :
    ((0 : Int) ≤ 123456 ∧ (123456 : Int) - 123456 % 10000 + 9999 ≤ literalMax 123456)
      ∧ (BROADCAST_ID 123456 = 123456 - 123456 % 10000 + 9999
        ∧ BROADCAST_ID 123456 / 10000 = 123456 / 10000
        ∧ BROADCAST_ID 123456 % 10000 = 9999
        ∧ (∀ d2 : Int, 0 ≤ d2 → d2 - d2 % 10000 + 9999 ≤ literalMax d2 →
            (BROADCAST_ID 123456 = BROADCAST_ID d2 ↔ 123456 / 10000 = d2 / 10000))
        ∧ BROADCAST_ID (BROADCAST_ID 123456) = BROADCAST_ID 123456
        ∧ BROADCAST_ID DEVICE_ID = 29999
        ∧ BROADCAST_ID DEVICE_ID ≠ DEVICE_ID) :=
  ⟨⟨by decide, by decide⟩, BROADCAST_ID_digits 123456 (by decide) (by decide)⟩

/-! ## At most one read per fast tick -/

theorem RefreshInv_step (s s2 : State) (e : Event) (ht : s2.trace = s.trace ++ [e])
    (hp : ∀ t, t <+: s.trace → currentCalls t ≤ fastTicks t ∧ raindropCalls t ≤ fastTicks t)
    (h1 : currentCalls (s.trace ++ [e]) + s2.refreshRequested.1.toNat
            ≤ fastTicks (s.trace ++ [e]))
    (h2 : raindropCalls (s.trace ++ [e]) + s2.refreshRequested.2.toNat
            ≤ fastTicks (s.trace ++ [e])) :
    RefreshInv s2 := by
  unfold RefreshInv
  rw [ht]
  refine ⟨?_, h1, h2⟩
  intro t htp
  rcases List.prefix_concat_iff.mp htp with h | h
  · rw [h]
    exact ⟨by omega, by omega⟩
  · exact hp t h

theorem initialState_RefreshInv : RefreshInv initialState := by
  refine ⟨?_, by decide, by decide⟩
  intro t ht
  have : t = [] := List.prefix_nil.mp ht
  rw [this]
  exact ⟨Nat.le_refl 0, Nat.le_refl 0⟩

theorem reportTick_RefreshInv (s : State) (h : RefreshInv s) : RefreshInv (reportTick s) := by
  obtain ⟨hp, h1, h2⟩ := h
  refine RefreshInv_step s _ Event.slowTick rfl hp ?_ ?_
  · show currentCalls (s.trace ++ [Event.slowTick]) + 0 ≤ fastTicks (s.trace ++ [Event.slowTick])
    simp only [currentCalls, fastTicks, List.countP_append, List.countP_singleton,
      Event.isCurrentCall, Event.isFastTick, Bool.false_eq_true, if_true, if_false] at h1 ⊢
    omega
  · show raindropCalls (s.trace ++ [Event.slowTick]) + 0
      ≤ fastTicks (s.trace ++ [Event.slowTick])
    simp only [raindropCalls, fastTicks, List.countP_append, List.countP_singleton,
      Event.isRaindropCall, Event.isFastTick, Bool.false_eq_true, if_true, if_false] at h2 ⊢
    omega

theorem sensorTick_RefreshInv (s : State) (h : RefreshInv s) : RefreshInv (sensorTick s) := by
  obtain ⟨hp, h1, h2⟩ := h
  refine RefreshInv_step s _ Event.fastTick rfl hp ?_ ?_
  · show currentCalls (s.trace ++ [Event.fastTick]) + 1 ≤ fastTicks (s.trace ++ [Event.fastTick])
    simp only [currentCalls, fastTicks, List.countP_append, List.countP_singleton,
      Event.isCurrentCall, Event.isFastTick, Bool.false_eq_true, if_true, if_false] at h1 ⊢
    omega
  · show raindropCalls (s.trace ++ [Event.fastTick]) + 1
      ≤ fastTicks (s.trace ++ [Event.fastTick])
    simp only [raindropCalls, fastTicks, List.countP_append, List.countP_singleton,
      Event.isRaindropCall, Event.isFastTick, Bool.false_eq_true, if_true, if_false] at h2 ⊢
    omega

theorem readCurrent_RefreshInv (inp : PassInput) (s : State) (h : RefreshInv s) :
    RefreshInv (readCurrent inp s) := by
  unfold readCurrent
  split
  next hf =>
    obtain ⟨hp, h1, h2⟩ := h
    rw [hf] at h1
    refine RefreshInv_step s _ _ (getNewCurrent_trace _ s) hp ?_ ?_
    · rw [getNewCurrent_refreshRequested]
      simp only [currentCalls, fastTicks, List.countP_append, List.countP_singleton,
        Event.isCurrentCall, Event.isFastTick, Bool.toNat_true, Bool.toNat_false, Bool.false_eq_true, if_true, if_false] at h1 ⊢
      omega
    · rw [getNewCurrent_refreshRequested]
      simp only [raindropCalls, fastTicks, List.countP_append, List.countP_singleton,
        Event.isRaindropCall, Event.isFastTick, Bool.false_eq_true, if_true, if_false] at h2 ⊢
      omega
  next => exact h

theorem readRaindrop_RefreshInv (inp : PassInput) (s : State) (h : RefreshInv s) :
    RefreshInv (readRaindrop inp s) := by
  unfold readRaindrop
  split
  next hf =>
    obtain ⟨hp, h1, h2⟩ := h
    rw [hf] at h2
    refine RefreshInv_step s _ _ (getNewRaindrop_trace _ s) hp ?_ ?_
    · rw [getNewRaindrop_refreshRequested]
      simp only [currentCalls, fastTicks, List.countP_append, List.countP_singleton,
        Event.isCurrentCall, Event.isFastTick, Bool.false_eq_true, if_true, if_false] at h1 ⊢
      omega
    · rw [getNewRaindrop_refreshRequested]
      simp only [raindropCalls, fastTicks, List.countP_append, List.countP_singleton,
        Event.isRaindropCall, Event.isFastTick, Bool.toNat_true, Bool.toNat_false, Bool.false_eq_true, if_true, if_false] at h2 ⊢
      omega
  next => exact h

theorem readGas_RefreshInv (inp : PassInput) (s : State) (h : RefreshInv s) :
    RefreshInv (readGas inp s) := by
  unfold readGas
  split
  next =>
    obtain ⟨hp, h1, h2⟩ := h
    refine RefreshInv_step s _ Event.callGas rfl hp ?_ ?_
    · show currentCalls (s.trace ++ [Event.callGas]) + s.refreshRequested.1.toNat
        ≤ fastTicks (s.trace ++ [Event.callGas])
      simp only [currentCalls, fastTicks, List.countP_append, List.countP_singleton,
        Event.isCurrentCall, Event.isFastTick, Bool.false_eq_true, if_true, if_false] at h1 ⊢
      omega
    · show raindropCalls (s.trace ++ [Event.callGas]) + s.refreshRequested.2.toNat
        ≤ fastTicks (s.trace ++ [Event.callGas])
      simp only [raindropCalls, fastTicks, List.countP_append, List.countP_singleton,
        Event.isRaindropCall, Event.isFastTick, Bool.false_eq_true, if_true, if_false] at h2 ⊢
      omega
  next => exact h

theorem readGPS_RefreshInv (s : State) (h : RefreshInv s) : RefreshInv (readGPS s) := by
  unfold readGPS
  split
  next =>
    obtain ⟨hp, h1, h2⟩ := h
    refine RefreshInv_step s _ Event.callGPS rfl hp ?_ ?_
    · show currentCalls (s.trace ++ [Event.callGPS]) + s.refreshRequested.1.toNat
        ≤ fastTicks (s.trace ++ [Event.callGPS])
      simp only [currentCalls, fastTicks, List.countP_append, List.countP_singleton,
        Event.isCurrentCall, Event.isFastTick, Bool.false_eq_true, if_true, if_false] at h1 ⊢
      omega
    · show raindropCalls (s.trace ++ [Event.callGPS]) + s.refreshRequested.2.toNat
        ≤ fastTicks (s.trace ++ [Event.callGPS])
      simp only [raindropCalls, fastTicks, List.countP_append, List.countP_singleton,
        Event.isRaindropCall, Event.isFastTick, Bool.false_eq_true, if_true, if_false] at h2 ⊢
      omega
  next => exact h

theorem loop_RefreshInv (inp : PassInput) (s : State) (h : RefreshInv s) :
    RefreshInv (loop inp s) := by
  have h1 : RefreshInv (slowPhase inp s) := by
    unfold slowPhase
    split
    · exact reportTick_RefreshInv s h
    · exact h
  have h2 : RefreshInv (fastPhase inp (slowPhase inp s)) := by
    unfold fastPhase
    split
    · exact sensorTick_RefreshInv _ h1
    · exact h1
  unfold loop readPhase
  split
  · exact readGPS_RefreshInv _ (readGas_RefreshInv _ _
      (readRaindrop_RefreshInv _ _ (readCurrent_RefreshInv _ _ h2)))
  · exact h2

theorem run_RefreshInv (inps : List PassInput) : RefreshInv (run inps) := by
  induction inps using List.reverseRecOn with
  | nil => exact initialState_RefreshInv
  | append_singleton inps inp ih =>
    rw [run_concat]
    exact loop_RefreshInv inp _ ih

theorem readGas_refreshRequested (inp : PassInput) (s : State) :
    (readGas inp s).refreshRequested = s.refreshRequested := by
  unfold readGas
  split <;> rfl

theorem readGPS_refreshRequested (s : State) :
    (readGPS s).refreshRequested = s.refreshRequested := by
  unfold readGPS
  split <;> rfl

/-- After the sensor reads of a pass no refresh request is pending. -/
theorem readSensors_refreshRequested (inp : PassInput) (s : State) :
    (readSensors inp s).refreshRequested = (false, false) := by
  unfold readSensors
  rw [readGPS_refreshRequested, readGas_refreshRequested]
  have h1 : (readCurrent inp s).refreshRequested.1 = false := by
    unfold readCurrent
    split
    · rw [getNewCurrent_refreshRequested]
    · next hf => simpa using hf
  unfold readRaindrop
  split
  · rw [getNewRaindrop_refreshRequested, h1]
  · next hf =>
    have h2 : (readCurrent inp s).refreshRequested.2 = false := by simpa using hf
    exact Prod.ext h1 h2

/-- A pass without a fast tick sets no refresh flag. -/
theorem loop_refreshRequested_of_not_fast (inp : PassInput) (s : State)
    (hf : inp.fastDue = false) :
    ((loop inp s).refreshRequested.1 = true → s.refreshRequested.1 = true)
      ∧ ((loop inp s).refreshRequested.2 = true → s.refreshRequested.2 = true) := by
  have hfast : fastPhase inp (slowPhase inp s) = slowPhase inp s := by
    unfold fastPhase
    rw [hf]
    rfl
  unfold loop readPhase
  rw [hfast]
  split
  · rw [readSensors_refreshRequested]
    exact ⟨fun h => absurd h (by decide), fun h => absurd h (by decide)⟩
  · unfold slowPhase
    split
    · exact ⟨fun h => absurd h Bool.false_ne_true, fun h => absurd h Bool.false_ne_true⟩
    · exact ⟨id, id⟩

/-- C7: at every point of every run from the initial state the calls of
`getNewCurrent` are at most the fast ticks fired so far, and likewise the
calls of `getNewRaindrop`; the refresh flag of a sensor is false when its
read returns, stored or not; and a pass without a fast tick sets no refresh
flag. -/
theorem read_at_most_once_per_fast_tick (inps : List PassInput) (t : List Event)
    (ht : t <+: (run inps).trace) :
    (currentCalls t ≤ fastTicks t ∧ raindropCalls t ≤ fastTicks t)
      ∧ (∀ (s : State) (irms : ℚ), (getNewCurrent irms s).refreshRequested.1 = false)
      ∧ (∀ (s : State) (adc : Int), (getNewRaindrop adc s).refreshRequested.2 = false)
      ∧ (∀ (inp : PassInput) (s : State), inp.fastDue = false →
          ((loop inp s).refreshRequested.1 = true → s.refreshRequested.1 = true)
            ∧ ((loop inp s).refreshRequested.2 = true → s.refreshRequested.2 = true)) := by
  refine ⟨(run_RefreshInv inps).1 t ht, ?_, ?_, loop_refreshRequested_of_not_fast⟩
  · intro s irms
    rw [getNewCurrent_refreshRequested]
  · intro s adc
    rw [getNewRaindrop_refreshRequested]

/-- Witness for C7 on the whole trace of `sampleCycle`. -/
theorem read_at_most_once_per_fast_tick_witness :
    (run sampleCycle).trace <+: (run sampleCycle).trace
      ∧ ((currentCalls (run sampleCycle).trace ≤ fastTicks (run sampleCycle).trace
          ∧ raindropCalls (run sampleCycle).trace ≤ fastTicks (run sampleCycle).trace)
        ∧ (∀ (s : State) (irms : ℚ), (getNewCurrent irms s).refreshRequested.1 = false)
        ∧ (∀ (s : State) (adc : Int), (getNewRaindrop adc s).refreshRequested.2 = false)
        ∧ (∀ (inp : PassInput) (s : State), inp.fastDue = false →
            ((loop inp s).refreshRequested.1 = true → s.refreshRequested.1 = true)
              ∧ ((loop inp s).refreshRequested.2 = true → s.refreshRequested.2 = true))) :=
  ⟨List.prefix_refl _,
    read_at_most_once_per_fast_tick sampleCycle (run sampleCycle).trace (List.prefix_refl _)⟩

/-! ## At most one fuel reading per reporting cycle -/

theorem gasCallsSinceSlow_concat (t : List Event) (e : Event) :
    gasCallsSinceSlow (t ++ [e])
      = (match e with
        | Event.slowTick => 0
        | Event.callGas => gasCallsSinceSlow t + 1
        | _ => gasCallsSinceSlow t) := by
  simp [gasCallsSinceSlow, List.foldl_append]

theorem GasInv_step (s s2 : State) (e : Event) (ht : s2.trace = s.trace ++ [e])
    (hp : ∀ t, t <+: s.trace → gasCallsSinceSlow t ≤ 1)
    (h1 : gasCallsSinceSlow (s.trace ++ [e]) + s2.gasRequested.toNat ≤ 1) :
    GasInv s2 := by
  unfold GasInv
  rw [ht]
  refine ⟨?_, h1⟩
  intro t htp
  rcases List.prefix_concat_iff.mp htp with h | h
  · rw [h]
    omega
  · exact hp t h

theorem initialState_GasInv : GasInv initialState := by
  refine ⟨?_, by decide⟩
  intro t ht
  have : t = [] := List.prefix_nil.mp ht
  rw [this]
  exact Nat.zero_le 1

theorem getNewCurrent_gasRequested (irms : ℚ) (s : State) :
    (getNewCurrent irms s).gasRequested = s.gasRequested := by
  unfold getNewCurrent
  split_ifs <;> rfl

theorem getNewRaindrop_gasRequested (adc : Int) (s : State) :
    (getNewRaindrop adc s).gasRequested = s.gasRequested := by
  unfold getNewRaindrop
  split_ifs <;> rfl

theorem reportTick_GasInv (s : State) (h : GasInv s) : GasInv (reportTick s) := by
  refine GasInv_step s _ Event.slowTick rfl h.1 ?_
  rw [gasCallsSinceSlow_concat]
  exact Nat.le_refl 1

theorem sensorTick_GasInv (s : State) (h : GasInv s) : GasInv (sensorTick s) := by
  refine GasInv_step s _ Event.fastTick rfl h.1 ?_
  rw [gasCallsSinceSlow_concat]
  exact h.2

theorem readCurrent_GasInv (inp : PassInput) (s : State) (h : GasInv s) :
    GasInv (readCurrent inp s) := by
  unfold readCurrent
  split
  · refine GasInv_step s _ _ (getNewCurrent_trace _ s) h.1 ?_
    rw [gasCallsSinceSlow_concat, getNewCurrent_gasRequested]
    exact h.2
  · exact h

theorem readRaindrop_GasInv (inp : PassInput) (s : State) (h : GasInv s) :
    GasInv (readRaindrop inp s) := by
  unfold readRaindrop
  split
  · refine GasInv_step s _ _ (getNewRaindrop_trace _ s) h.1 ?_
    rw [gasCallsSinceSlow_concat, getNewRaindrop_gasRequested]
    exact h.2
  · exact h

theorem readGas_GasInv (inp : PassInput) (s : State) (h : GasInv s) :
    GasInv (readGas inp s) := by
  unfold readGas
  split
  next hg =>
    have h2 := h.2
    rw [hg] at h2
    refine GasInv_step s _ Event.callGas rfl h.1 ?_
    rw [gasCallsSinceSlow_concat]
    show gasCallsSinceSlow s.trace + 1 + 0 ≤ 1
    simpa using h2
  next => exact h

theorem readGPS_GasInv (s : State) (h : GasInv s) : GasInv (readGPS s) := by
  unfold readGPS
  split
  · refine GasInv_step s _ Event.callGPS rfl h.1 ?_
    rw [gasCallsSinceSlow_concat]
    exact h.2
  · exact h

theorem loop_GasInv (inp : PassInput) (s : State) (h : GasInv s) : GasInv (loop inp s) := by
  have h1 : GasInv (slowPhase inp s) := by
    unfold slowPhase
    split
    · exact reportTick_GasInv s h
    · exact h
  have h2 : GasInv (fastPhase inp (slowPhase inp s)) := by
    unfold fastPhase
    split
    · exact sensorTick_GasInv _ h1
    · exact h1
  unfold loop readPhase
  split
  · exact readGPS_GasInv _ (readGas_GasInv _ _
      (readRaindrop_GasInv _ _ (readCurrent_GasInv _ _ h2)))
  · exact h2

theorem run_GasInv (inps : List PassInput) : GasInv (run inps) := by
  induction inps using List.reverseRecOn with
  | nil => exact initialState_GasInv
  | append_singleton inps inp ih =>
    rw [run_concat]
    exact loop_GasInv inp _ ih

theorem gasCalls_concat (t : List Event) (e : Event) :
    gasCalls (t ++ [e]) = gasCalls t + (Event.isGasCall e).toNat := by
  unfold gasCalls
  rw [List.countP_append, List.countP_singleton]
  cases Event.isGasCall e <;> rfl

theorem getNewCurrent_gas (irms : ℚ) (s : State) : (getNewCurrent irms s).gas = s.gas := by
  unfold getNewCurrent
  split_ifs <;> rfl

theorem getNewRaindrop_gas (adc : Int) (s : State) : (getNewRaindrop adc s).gas = s.gas := by
  unfold getNewRaindrop
  split_ifs <;> rfl

theorem tickPhases_gas (inp : PassInput) (s : State) :
    (fastPhase inp (slowPhase inp s)).gas = s.gas
      ∧ gasCalls (fastPhase inp (slowPhase inp s)).trace = gasCalls s.trace := by
  unfold fastPhase slowPhase
  split_ifs
  · exact ⟨rfl, by
      show gasCalls ((s.trace ++ [Event.slowTick]) ++ [Event.fastTick]) = gasCalls s.trace
      rw [gasCalls_concat, gasCalls_concat]; rfl⟩
  · exact ⟨rfl, by
      show gasCalls (s.trace ++ [Event.fastTick]) = gasCalls s.trace
      rw [gasCalls_concat]; rfl⟩
  · exact ⟨rfl, by
      show gasCalls (s.trace ++ [Event.slowTick]) = gasCalls s.trace
      rw [gasCalls_concat]; rfl⟩
  · exact ⟨rfl, rfl⟩

theorem readCurrent_gas (inp : PassInput) (s : State) :
    (readCurrent inp s).gas = s.gas
      ∧ gasCalls (readCurrent inp s).trace = gasCalls s.trace := by
  unfold readCurrent
  split
  · rw [getNewCurrent_gas, getNewCurrent_trace, gasCalls_concat]
    exact ⟨rfl, rfl⟩
  · exact ⟨rfl, rfl⟩

theorem readRaindrop_gas (inp : PassInput) (s : State) :
    (readRaindrop inp s).gas = s.gas
      ∧ gasCalls (readRaindrop inp s).trace = gasCalls s.trace := by
  unfold readRaindrop
  split
  · rw [getNewRaindrop_gas, getNewRaindrop_trace, gasCalls_concat]
    exact ⟨rfl, rfl⟩
  · exact ⟨rfl, rfl⟩

theorem readGPS_gas (s : State) :
    (readGPS s).gas = s.gas ∧ gasCalls (readGPS s).trace = gasCalls s.trace := by
  unfold readGPS
  split
  · rw [getNewGPS_trace, gasCalls_concat]
    exact ⟨rfl, rfl⟩
  · exact ⟨rfl, rfl⟩

theorem readGas_gas (inp : PassInput) (s : State) :
    ((readGas inp s).gas = s.gas ∧ gasCalls (readGas inp s).trace = gasCalls s.trace)
      ∨ gasCalls (readGas inp s).trace = gasCalls s.trace + 1 := by
  unfold readGas
  split
  · right
    rw [getNewGas_trace, gasCalls_concat]
    rfl
  · exact Or.inl ⟨rfl, rfl⟩

/-- A pass either leaves `gas` as it is and records no call of `getNewGas`,
or records one such call. -/
theorem loop_gas (inp : PassInput) (s : State) :
    ((loop inp s).gas = s.gas ∧ gasCalls (loop inp s).trace = gasCalls s.trace)
      ∨ gasCalls (loop inp s).trace = gasCalls s.trace + 1 := by
  obtain ⟨t1, t2⟩ := tickPhases_gas inp s
  unfold loop readPhase
  split
  · unfold readSensors
    obtain ⟨c1, c2⟩ := readCurrent_gas inp (fastPhase inp (slowPhase inp s))
    obtain ⟨r1, r2⟩ := readRaindrop_gas inp (readCurrent inp (fastPhase inp (slowPhase inp s)))
    obtain ⟨p1, p2⟩ := readGPS_gas
      (readGas inp (readRaindrop inp (readCurrent inp (fastPhase inp (slowPhase inp s)))))
    rw [p1, p2]
    rcases readGas_gas inp
      (readRaindrop inp (readCurrent inp (fastPhase inp (slowPhase inp s)))) with ⟨g1, g2⟩ | g
    · left
      rw [g1, g2, r1, r2, c1, c2]
      exact ⟨t1, t2⟩
    · right
      rw [g, r2, c2, t2]
  · exact Or.inl ⟨t1, t2⟩

theorem readSensors_gasRequested (inp : PassInput) (s : State) :
    (readSensors inp s).gasRequested = false := by
  have hgps : ∀ st : State, (readGPS st).gasRequested = st.gasRequested := by
    intro st
    unfold readGPS
    split <;> rfl
  unfold readSensors
  rw [hgps]
  unfold readGas
  split
  · rfl
  · next hf => simpa using hf

/-- A pass without a slow tick does not set `gasRequested`. -/
theorem loop_gasRequested_of_not_slow (inp : PassInput) (s : State)
    (hs : inp.slowDue = false) (h : (loop inp s).gasRequested = true) :
    s.gasRequested = true := by
  have hslow : slowPhase inp s = s := by
    unfold slowPhase
    rw [hs]
    rfl
  have hfast : (fastPhase inp s).gasRequested = s.gasRequested := by
    unfold fastPhase
    split <;> rfl
  unfold loop readPhase at h
  rw [hslow] at h
  split at h
  · rw [readSensors_gasRequested] at h
    exact absurd h Bool.false_ne_true
  · rw [hfast] at h
    exact h

/-- C8: at every point of every run from the initial state at most one call
of `getNewGas` follows the latest slow tick (at most one call before the
first slow tick, at most one between two consecutive slow ticks).
`gasRequested` is true at start and after the report tick, the fast tick
leaves it and `gas` as they are, a pass without a slow tick does not set it,
and it is false after `getNewGas`; a pass that records no call of `getNewGas`
leaves `gas` unchanged. -/
theorem fuel_read_at_most_once_per_report (inps : List PassInput) (t : List Event)
    (ht : t <+: (run inps).trace) :
    gasCallsSinceSlow t ≤ 1
      ∧ initialState.gasRequested = true
      ∧ (∀ s : State, (reportTick s).gasRequested = true)
      ∧ (∀ s : State, (sensorTick s).gasRequested = s.gasRequested ∧ (sensorTick s).gas = s.gas)
      ∧ (∀ (inp : PassInput) (s : State), inp.slowDue = false →
          (loop inp s).gasRequested = true → s.gasRequested = true)
      ∧ (∀ (s : State) (echo : ℚ), (getNewGas echo s).gasRequested = false)
      ∧ (∀ (inp : PassInput) (s : State),
          gasCalls (loop inp s).trace = gasCalls s.trace → (loop inp s).gas = s.gas) := by
  refine ⟨(run_GasInv inps).1 t ht, rfl, fun _ => rfl, fun _ => ⟨rfl, rfl⟩,
    loop_gasRequested_of_not_slow, fun _ _ => rfl, ?_⟩
  intro inp s hcalls
  rcases loop_gas inp s with ⟨hg, _⟩ | hg
  · exact hg
  · omega

/-- Witness for C8 on the whole trace of `sampleCycle`. -/
theorem fuel_read_at_most_once_per_report_witness :
    (run sampleCycle).trace <+: (run sampleCycle).trace
      ∧ (gasCallsSinceSlow (run sampleCycle).trace ≤ 1
        ∧ initialState.gasRequested = true
        ∧ (∀ s : State, (reportTick s).gasRequested = true)
        ∧ (∀ s : State,
            (sensorTick s).gasRequested = s.gasRequested ∧ (sensorTick s).gas = s.gas)
        ∧ (∀ (inp : PassInput) (s : State), inp.slowDue = false →
            (loop inp s).gasRequested = true → s.gasRequested = true)
        ∧ (∀ (s : State) (echo : ℚ), (getNewGas echo s).gasRequested = false)
        ∧ (∀ (inp : PassInput) (s : State),
            gasCalls (loop inp s).trace = gasCalls s.trace → (loop inp s).gas = s.gas)) :=
  ⟨List.prefix_refl _,
    fuel_read_at_most_once_per_report sampleCycle (run sampleCycle).trace (List.prefix_refl _)⟩

/-! ## Rain reading -/

/-- C12: with `0 ≤ index < ARRAY_SIZE` and a rain buffer of `ARRAY_SIZE`
slots, `getNewRaindrop` stores in `raindrops[index]` the value 1 (wet) when
the analog reading is below `LLUVIA_THRESHOLD_10BIT = 512` and 0 (dry)
otherwise, under `LLUVIA_ACTIVO = LOW`; the stored value is never `-1`
(unknown); every other slot of `raindrops`, and `currents`, are unchanged.
This holds for every integer reading, in particular for the 10 bit readings
0 to 1023. -/
theorem getNewRaindrop_stores_wet_or_dry (s : State) (a : Int)
    (hi0 : 0 ≤ s.index) (hi1 : s.index < ARRAY_SIZE)
    (hlen : (s.raindrops.length : Int) = ARRAY_SIZE) :
    LLUVIA_ACTIVO = LOW
      ∧ LLUVIA_THRESHOLD_10BIT = 512
      ∧ (getNewRaindrop a s).raindrops[s.index.toNat]? = some (if a < 512 then 1 else 0)
      ∧ ((getNewRaindrop a s).raindrops[s.index.toNat]? = some 1 ↔ a < 512)
      ∧ ((getNewRaindrop a s).raindrops[s.index.toNat]? = some 0 ↔ 512 ≤ a)
      ∧ (getNewRaindrop a s).raindrops[s.index.toNat]? ≠ some (-1)
      ∧ (∀ j : Nat, j ≠ s.index.toNat →
          (getNewRaindrop a s).raindrops[j]? = s.raindrops[j]?)
      ∧ (getNewRaindrop a s).raindrops.length = s.raindrops.length
      ∧ (getNewRaindrop a s).currents = s.currents := by
  have hT : LLUVIA_THRESHOLD_10BIT = 512 := rfl
  have hlt : s.index.toNat < s.raindrops.length := by omega
  have hr : (getNewRaindrop a s).raindrops
      = s.raindrops.set s.index.toNat (if a < 512 then 1 else 0) := by
    rw [getNewRaindrop_raindrops, if_pos hi1, hT]
    unfold store
    rw [if_pos hi0]
  have hslot : (getNewRaindrop a s).raindrops[s.index.toNat]?
      = some (if a < 512 then 1 else 0) := by
    rw [hr]
    exact List.getElem?_set_self hlt
  refine ⟨rfl, hT, hslot, ?_, ?_, ?_, ?_, ?_, getNewRaindrop_currents a s⟩
  · rw [hslot]
    by_cases h : a < 512
    · simp [h]
    · simp [h]
  · rw [hslot]
    by_cases h : a < 512
    · have h2 : ¬ (512 ≤ a) := by omega
      simp [h, h2]
    · have h2 : 512 ≤ a := by omega
      simp [h, h2]
  · rw [hslot]
    by_cases h : a < 512
    · simp [h]
    · simp [h]
  · intro j hj
    rw [hr]
    exact List.getElem?_set_ne (Ne.symm hj)
  · rw [hr]
    exact List.length_set _ _ _

/-- Witness for C12: the reading 300 at slot 3 of the initial buffers. -/
theorem getNewRaindrop_stores_wet_or_dry_witness :
    (0 ≤ stateAtSlotThree.index ∧ stateAtSlotThree.index < ARRAY_SIZE
      ∧ (stateAtSlotThree.raindrops.length : Int) = ARRAY_SIZE)
    ∧ (LLUVIA_ACTIVO = LOW
      ∧ LLUVIA_THRESHOLD_10BIT = 512
      ∧ (getNewRaindrop 300 stateAtSlotThree).raindrops[stateAtSlotThree.index.toNat]?
          = some (if (300 : Int) < 512 then 1 else 0)
      ∧ ((getNewRaindrop 300 stateAtSlotThree).raindrops[stateAtSlotThree.index.toNat]?
          = some 1 ↔ (300 : Int) < 512)
      ∧ ((getNewRaindrop 300 stateAtSlotThree).raindrops[stateAtSlotThree.index.toNat]?
          = some 0 ↔ (512 : Int) ≤ 300)
      ∧ (getNewRaindrop 300 stateAtSlotThree).raindrops[stateAtSlotThree.index.toNat]?
          ≠ some (-1)
      ∧ (∀ j : Nat, j ≠ stateAtSlotThree.index.toNat →
          (getNewRaindrop 300 stateAtSlotThree).raindrops[j]? = stateAtSlotThree.raindrops[j]?)
      ∧ (getNewRaindrop 300 stateAtSlotThree).raindrops.length
          = stateAtSlotThree.raindrops.length
      ∧ (getNewRaindrop 300 stateAtSlotThree).currents = stateAtSlotThree.currents) :=
  ⟨⟨by decide, by decide, by decide⟩,
    getNewRaindrop_stores_wet_or_dry stateAtSlotThree 300 (by decide) (by decide) (by decide)⟩

/-! ## Time alignment of the two buffers -/

theorem currentSlotsSinceReset_concat (t : List Event) (e : Event) :
    currentSlotsSinceReset (t ++ [e])
      = (match e with
        | Event.slowTick => []
        | Event.callCurrent (some i) => currentSlotsSinceReset t ++ [i]
        | _ => currentSlotsSinceReset t) := by
  simp [currentSlotsSinceReset, List.foldl_append]

theorem raindropSlotsSinceReset_concat (t : List Event) (e : Event) :
    raindropSlotsSinceReset (t ++ [e])
      = (match e with
        | Event.slowTick => []
        | Event.callRaindrop (some i) => raindropSlotsSinceReset t ++ [i]
        | _ => raindropSlotsSinceReset t) := by
  simp [raindropSlotsSinceReset, List.foldl_append]

theorem getNewCurrent_index (irms : ℚ) (s : State) :
    (getNewCurrent irms s).index = s.index := by
  unfold getNewCurrent
  split_ifs <;> rfl

/-- The two fast-period reads of a pass, from a state with equal refresh
flags: either both sensors are called, with the same slot, or neither. -/
theorem readPair_trace (inp : PassInput) (s : State)
    (h : s.refreshRequested.1 = s.refreshRequested.2) :
    (readRaindrop inp (readCurrent inp s)).trace
      = s.trace ++ (if s.refreshRequested.1 then
          [Event.callCurrent (guardedSlot s), Event.callRaindrop (guardedSlot s)] else []) := by
  by_cases hf : s.refreshRequested.1 = true
  · have hc : readCurrent inp s = getNewCurrent inp.irms s := by
      unfold readCurrent
      rw [if_pos hf]
    have hr : readRaindrop inp (getNewCurrent inp.irms s)
        = getNewRaindrop inp.adc (getNewCurrent inp.irms s) := by
      unfold readRaindrop
      rw [getNewCurrent_refreshRequested, ← h, hf]
      rfl
    rw [hc, hr, getNewRaindrop_trace, getNewCurrent_trace, getNewCurrent_index, if_pos hf,
      List.append_assoc]
    rfl
  · have hc : readCurrent inp s = s := by
      unfold readCurrent
      rw [if_neg hf]
    have hf2 : ¬ (s.refreshRequested.2 = true) := by rw [← h]; exact hf
    have hr : readRaindrop inp s = s := by
      unfold readRaindrop
      rw [if_neg hf2]
    rw [hc, hr, if_neg hf, List.append_nil]

theorem slots_after_pair (t : List Event) (x : Option Int)
    (h : currentSlotsSinceReset t = raindropSlotsSinceReset t) :
    currentSlotsSinceReset (t ++ [Event.callCurrent x, Event.callRaindrop x])
      = raindropSlotsSinceReset (t ++ [Event.callCurrent x, Event.callRaindrop x]) := by
  have happ : t ++ [Event.callCurrent x, Event.callRaindrop x]
      = (t ++ [Event.callCurrent x]) ++ [Event.callRaindrop x] := by simp
  rw [happ, currentSlotsSinceReset_concat, raindropSlotsSinceReset_concat,
    currentSlotsSinceReset_concat, raindropSlotsSinceReset_concat]
  cases x with
  | none => exact h
  | some i => simp only [h]

theorem initialState_AlignedInv : AlignedInv initialState := ⟨rfl, rfl⟩

theorem reportTick_AlignedInv (s : State) : AlignedInv (reportTick s) := by
  refine ⟨rfl, ?_⟩
  show currentSlotsSinceReset (s.trace ++ [Event.slowTick])
    = raindropSlotsSinceReset (s.trace ++ [Event.slowTick])
  rw [currentSlotsSinceReset_concat, raindropSlotsSinceReset_concat]

theorem sensorTick_AlignedInv (s : State) (h : AlignedInv s) : AlignedInv (sensorTick s) := by
  refine ⟨rfl, ?_⟩
  show currentSlotsSinceReset (s.trace ++ [Event.fastTick])
    = raindropSlotsSinceReset (s.trace ++ [Event.fastTick])
  rw [currentSlotsSinceReset_concat, raindropSlotsSinceReset_concat]
  exact h.2

theorem tickPhases_AlignedInv (inp : PassInput) (s : State) (h : AlignedInv s) :
    AlignedInv (fastPhase inp (slowPhase inp s)) := by
  have h1 : AlignedInv (slowPhase inp s) := by
    unfold slowPhase
    split
    · exact reportTick_AlignedInv s
    · exact h
  unfold fastPhase
  split
  · exact sensorTick_AlignedInv _ h1
  · exact h1

theorem readPair_AlignedInv (inp : PassInput) (s : State) (h : AlignedInv s) :
    AlignedInv (readRaindrop inp (readCurrent inp s)) := by
  refine ⟨?_, ?_⟩
  · by_cases hf : s.refreshRequested.1 = true
    · have hc : readCurrent inp s = getNewCurrent inp.irms s := by
        unfold readCurrent
        rw [if_pos hf]
      have hr : readRaindrop inp (getNewCurrent inp.irms s)
          = getNewRaindrop inp.adc (getNewCurrent inp.irms s) := by
        unfold readRaindrop
        rw [getNewCurrent_refreshRequested, ← h.1, hf]
        rfl
      rw [hc, hr, getNewRaindrop_refreshRequested, getNewCurrent_refreshRequested]
    · have hc : readCurrent inp s = s := by
        unfold readCurrent
        rw [if_neg hf]
      have hf2 : ¬ (s.refreshRequested.2 = true) := by rw [← h.1]; exact hf
      have hr : readRaindrop inp s = s := by
        unfold readRaindrop
        rw [if_neg hf2]
      rw [hc, hr]
      exact h.1
  · rw [readPair_trace inp s h.1]
    split
    · exact slots_after_pair s.trace (guardedSlot s) h.2
    · rw [List.append_nil]
      exact h.2

theorem readGas_AlignedInv (inp : PassInput) (s : State) (h : AlignedInv s) :
    AlignedInv (readGas inp s) := by
  unfold readGas
  split
  · refine ⟨h.1, ?_⟩
    rw [getNewGas_trace, currentSlotsSinceReset_concat, raindropSlotsSinceReset_concat]
    exact h.2
  · exact h

theorem readGPS_AlignedInv (s : State) (h : AlignedInv s) : AlignedInv (readGPS s) := by
  unfold readGPS
  split
  · refine ⟨h.1, ?_⟩
    rw [getNewGPS_trace, currentSlotsSinceReset_concat, raindropSlotsSinceReset_concat]
    exact h.2
  · exact h

theorem loop_AlignedInv (inp : PassInput) (s : State) (h : AlignedInv s) :
    AlignedInv (loop inp s) := by
  have h2 := tickPhases_AlignedInv inp s h
  unfold loop readPhase
  split
  · exact readGPS_AlignedInv _ (readGas_AlignedInv _ _ (readPair_AlignedInv _ _ h2))
  · exact h2

theorem run_AlignedInv (inps : List PassInput) : AlignedInv (run inps) := by
  induction inps using List.reverseRecOn with
  | nil => exact initialState_AlignedInv
  | append_singleton inps inp ih =>
    rw [run_concat]
    exact loop_AlignedInv inp _ ih

/-- C11: in every state reached by loop passes from the initial state the
two refresh flags are equal, and since the latest slow tick `getNewCurrent`
and `getNewRaindrop` have stored to the same slots in the same order, so a
slot has a current reading written since that reset exactly when it has a
rain reading written since then; and in each further pass, from the state in
which its reads start, either both sensors are called, one after the other
with the same slot `index` (none when `index ≥ ARRAY_SIZE`), or neither. -/
theorem buffers_time_aligned (inps : List PassInput) :
    (run inps).refreshRequested.1 = (run inps).refreshRequested.2
      ∧ currentSlotsSinceReset (run inps).trace = raindropSlotsSinceReset (run inps).trace
      ∧ (∀ i : Int, i ∈ currentSlotsSinceReset (run inps).trace
          ↔ i ∈ raindropSlotsSinceReset (run inps).trace)
      ∧ (∀ inp : PassInput,
          (readRaindrop inp (readCurrent inp (fastPhase inp (slowPhase inp (run inps))))).trace
            = (fastPhase inp (slowPhase inp (run inps))).trace
              ++ (if (fastPhase inp (slowPhase inp (run inps))).refreshRequested.1 then
                  [Event.callCurrent (guardedSlot (fastPhase inp (slowPhase inp (run inps)))),
                    Event.callRaindrop (guardedSlot (fastPhase inp (slowPhase inp (run inps))))]
                else [])) := by
  obtain ⟨h1, h2⟩ := run_AlignedInv inps
  refine ⟨h1, h2, ?_, ?_⟩
  · intro i
    rw [h2]
  · intro inp
    exact readPair_trace inp _ (tickPhases_AlignedInv inp _ ⟨h1, h2⟩).1

end NodoExterior
